import Mathlib

/-!
Verification of the SciCiteCheck unified accession-resolution core.

The Python sources under `src/repo_scripts/` (six provider adapters plus
`utils.py`) are shallowly embedded below.  Remote services are modelled as
pure environments (one per adapter); each adapter operation becomes a pure
Lean function over that environment.  Python exceptions that can escape an
adapter are modelled with `Except PyErr`; operations whose network requests
matter to the claims additionally return the list of requested URLs.
-/

/-- Exceptions that the embedded Python code can raise. -/
inductive PyErr where
  | valueError
  | typeErr
  | keyErr (k : String)
  | attrErr
  | recursionError
  | poolError
deriving Repr, DecidableEq

deriving instance DecidableEq for Except

/-- A Python `dict` used as a file record: key/value pairs in insertion
order (Python dicts preserve insertion order). -/
abbrev FileDict := List (String × String)

/-- The `{access, data: {files}}` shape returned by `process_accession`
(the inner `data` wrapper is flattened into the structure). -/
structure ResolutionResult where
  access : String
  files : List FileDict
deriving Repr, DecidableEq

/-- Digits of a decimal literal, or `none` when empty or non-digit. -/
def digitsToNat (l : List Char) : Option Nat :=
  if l.isEmpty || !(l.all Char.isDigit) then none
  else some (l.foldl (fun a c => a * 10 + (c.toNat - 48)) 0)

/-- An exact decimal number `mant / 10 ^ exp10`.  JSON numbers, parsed
float strings and the running value of `format_size`'s repeated division
by 1024 are all exactly representable this way (`1/1024 = 5^10/10^10`),
so the Python float arithmetic involved is modelled exactly with integer
arithmetic. -/
structure Dec where
  mant : Int
  exp10 : Nat
deriving Repr, DecidableEq

/-- The integer `n` as a decimal value. -/
def Dec.ofInt (n : Int) : Dec := ⟨n, 0⟩

/-- `v * k`, modelling Python `size_kbytes * 1024`. -/
def Dec.scale (v : Dec) (k : Int) : Dec := ⟨v.mant * k, v.exp10⟩

/-- Numeric equality of decimal values. -/
def Dec.beqNum (a b : Dec) : Bool :=
  a.mant * (10 : Int) ^ b.exp10 == b.mant * (10 : Int) ^ a.exp10

/-- Does `a` equal the integer `n`? -/
def Dec.isInt (a : Dec) (n : Int) : Bool :=
  a.mant == n * (10 : Int) ^ a.exp10

/-- Round `n / d` (`d > 0`) to the nearest integer, ties to even (the
rounding used by Python `%.1f` formatting). -/
def rheDiv (n d : Int) : Int :=
  let q := Int.fdiv n d
  let r := n - q * d
  if 2 * r < d then q
  else if d < 2 * r then q + 1
  else if q % 2 = 0 then q else q + 1

/-- Render `n` tenths as a decimal string, e.g. `15 ↦ "1.5"`. -/
def renderTenthsNat (n : Nat) : String :=
  toString (n / 10) ++ "." ++ toString (n % 10)

/-- Python `f"{x:.1f}"` for the exact value `n / d` (`d > 0`). -/
def fmt1Frac (n d : Int) : String :=
  let t := rheDiv (n * 10) d
  if t < 0 then "-" ++ renderTenthsNat t.natAbs else renderTenthsNat t.toNat

/-- `utils.format_size`: repeatedly divide by 1024 through units
B/K/M/G/T, falling through to P.  The running value after `i` divisions
is `v / 1024 ^ i`, kept as the exact fraction
`mant / (10^exp10 * 1024^i)`; division by a power of two is exact in
binary floating point for the magnitudes involved, so comparisons and
the rounded rendering agree with the Python float computation. -/
def format_size (v : Dec) : String :=
  let n := v.mant
  let d := (10 : Int) ^ v.exp10
  if n < 1024 * d then fmt1Frac n d ++ "B"
  else if n < 1024 ^ 2 * d then fmt1Frac n (1024 * d) ++ "K"
  else if n < 1024 ^ 3 * d then fmt1Frac n (1024 ^ 2 * d) ++ "M"
  else if n < 1024 ^ 4 * d then fmt1Frac n (1024 ^ 3 * d) ++ "G"
  else if n < 1024 ^ 5 * d then fmt1Frac n (1024 ^ 4 * d) ++ "T"
  else fmt1Frac n (1024 ^ 5 * d) ++ "P"

/-- Left-pad with zeros to width `w`. -/
def pad0 (w : Nat) (s : String) : String :=
  if w ≤ s.length then s
  else String.mk (List.replicate (w - s.length) '0') ++ s

/-- Python `f"{n:06d}"`: zero-padded to total width 6, sign included. -/
def fmt06d (n : Int) : String :=
  if n < 0 then "-" ++ pad0 5 (toString n.natAbs) else pad0 6 (toString n.natAbs)

/-- Python `f"{x}"` (shortest `repr`) for a float parsed from a short
decimal string: integer part, then the fractional digits without
trailing zeros (`"0"` when there are none). -/
def renderPyFloat (v : Dec) : String :=
  let m := v.mant.natAbs
  let p := (10 : Nat) ^ v.exp10
  let frDigits := ((pad0 v.exp10 (toString (m % p))).data.reverse.dropWhile (· == '0')).reverse
  let frStr : String := if frDigits.isEmpty then "0" else ⟨frDigits⟩
  (if v.mant < 0 then "-" else "") ++ toString (m / p) ++ "." ++ frStr

/-- Python `s.startswith(pre)`. -/
def pyStartsWith (s pre : String) : Bool := pre.data.isPrefixOf s.data

/-- Python `s.endswith(suf)`. -/
def pyEndsWith (s suf : String) : Bool := suf.data.isSuffixOf s.data

/-- Python `s.strip()`. -/
def pyStrip (s : String) : String :=
  ⟨((s.data.dropWhile Char.isWhitespace).reverse.dropWhile Char.isWhitespace).reverse⟩

/-- Left-to-right non-overlapping replacement on character lists; the
fuel is the input length (each step consumes at least one character). -/
def replaceAux (needle repl : List Char) : Nat → List Char → List Char
  | 0, l => l
  | _ + 1, [] => []
  | fuel + 1, c :: rest =>
    if needle.isPrefixOf (c :: rest) then
      repl ++ replaceAux needle repl fuel ((c :: rest).drop needle.length)
    else c :: replaceAux needle repl fuel rest

/-- Python `s.replace(needle, repl)` (for non-empty needles). -/
def pyReplace (s needle repl : String) : String :=
  ⟨replaceAux needle.data repl.data s.data.length s.data⟩

/-- Splitting worker for `pySplitOn`. -/
def splitOnAux (sep : List Char) (acc : List Char) :
    Nat → List Char → List String
  | 0, l => [⟨acc.reverse ++ l⟩]
  | _ + 1, [] => [⟨acc.reverse⟩]
  | fuel + 1, c :: rest =>
    if sep.isPrefixOf (c :: rest) then
      (⟨acc.reverse⟩ : String) :: splitOnAux sep [] fuel ((c :: rest).drop sep.length)
    else splitOnAux sep (c :: acc) fuel rest

/-- Python `s.split(sep)` (for non-empty separators). -/
def pySplitOn (s sep : String) : List String :=
  splitOnAux sep.data [] s.data.length s.data

/-- Python `s.lower()`. -/
def pyToLower (s : String) : String := ⟨s.data.map Char.toLower⟩

/-- Substring test, modelling Python's `needle in hay`. -/
def strContains (hay needle : String) : Bool :=
  (List.range (hay.length + 1)).any (fun i => pyStartsWith (hay.drop i) needle)

/-- Python `int(s)`: strips whitespace, optional sign, decimal digits;
`none` models the `ValueError` raised on anything else. -/
def pyInt (s : String) : Option Int :=
  match (pyStrip s).data with
  | '-' :: rest => (digitsToNat rest).map (fun n => -(n : Int))
  | '+' :: rest => (digitsToNat rest).map (fun n => (n : Int))
  | l => (digitsToNat l).map (fun n => (n : Int))


/-- Split a character list at the first occurrence of `sep`, if any. -/
def takeNum (l : List Char) : List Char × List Char :=
  (l.takeWhile Char.isDigit, l.dropWhile Char.isDigit)

/-- Parsed components of an ISO-8601-ish timestamp. -/
structure IsoDateTime where
  year : Nat
  month : Nat
  day : Nat
  hour : Nat
  minute : Nat
deriving Repr, DecidableEq

/-- Parse `HH:MM[:SS[.ffffff]][±HH:MM]` after the date part. -/
def parseIsoTime (l : List Char) : Option (Nat × Nat) :=
  let (hh, r1) := takeNum l
  match r1 with
  | ':' :: r2 =>
    let (mm, r3) := takeNum r2
    let afterSec : Option (List Char) :=
      match r3 with
      | ':' :: r4 =>
        let (ss, r5) := takeNum r4
        if ss.length = 2 then
          match r5 with
          | '.' :: r6 =>
            let (fs, r7) := takeNum r6
            if 1 ≤ fs.length ∧ fs.length ≤ 6 then some r7 else none
          | r5' => some r5'
        else none
      | r3' => some r3'
    match afterSec with
    | none => none
    | some rest =>
      let offOk : Bool :=
        match rest with
        | [] => true
        | '+' :: r => match takeNum r with
          | (oh, ':' :: r') =>
            let (om, r'') := takeNum r'
            oh.length == 2 && om.length == 2 && r''.isEmpty
          | _ => false
        | '-' :: r => match takeNum r with
          | (oh, ':' :: r') =>
            let (om, r'') := takeNum r'
            oh.length == 2 && om.length == 2 && r''.isEmpty
          | _ => false
        | _ => false
      if hh.length = 2 ∧ mm.length = 2 ∧ offOk = true then
        match digitsToNat hh, digitsToNat mm with
        | some h, some m => if h < 24 ∧ m < 60 then some (h, m) else none
        | _, _ => none
      else none
  | _ => none

/-- Parse the subset of ISO-8601 accepted by `datetime.fromisoformat`
that the repository's date strings use: `YYYY-MM-DD`, optionally followed
by `'T'` or `' '` and a time with optional seconds, fraction and UTC
offset. -/
def parseIso (s : String) : Option IsoDateTime :=
  let (ys, r1) := takeNum s.data
  match r1 with
  | '-' :: r2 =>
    let (ms, r3) := takeNum r2
    match r3 with
    | '-' :: r4 =>
      let (ds, r5) := takeNum r4
      if ys.length = 4 ∧ ms.length = 2 ∧ ds.length = 2 then
        match digitsToNat ys, digitsToNat ms, digitsToNat ds with
        | some y, some mo, some d =>
          if 1 ≤ mo ∧ mo ≤ 12 ∧ 1 ≤ d ∧ d ≤ 31 then
            match r5 with
            | [] => some ⟨y, mo, d, 0, 0⟩
            | 'T' :: r6 => (parseIsoTime r6).map (fun (h, mi) => ⟨y, mo, d, h, mi⟩)
            | ' ' :: r6 => (parseIsoTime r6).map (fun (h, mi) => ⟨y, mo, d, h, mi⟩)
            | _ => none
          else none
        | _, _, _ => none
      else none
    | _ => none
  | _ => none

/-- `utils.format_date`: replace `'Z'` with `'+00:00'`, parse with
`fromisoformat`, and render `strftime('%Y-%m-%d %H:%M')`; any parse
failure (the bare `except:`) yields `"unknown"`. -/
def format_date (s : String) : String :=
  match parseIso (pyReplace s "Z" "+00:00") with
  | none => "unknown"
  | some dt =>
    pad0 4 (toString dt.year) ++ "-" ++ pad0 2 (toString dt.month) ++ "-" ++
      pad0 2 (toString dt.day) ++ " " ++ pad0 2 (toString dt.hour) ++ ":" ++
      pad0 2 (toString dt.minute)

/-- One `<td>` cell of an HTML table row: its text and the text of the
contained anchor, when one is present. -/
structure Cell where
  text : String
  anchor : Option String
deriving Repr, DecidableEq

/-- One `<tr>` of an HTML directory listing. -/
structure HtmlRow where
  cells : List Cell
deriving Repr, DecidableEq

/-- Parsed JSON values (numbers as exact rationals). -/
inductive Json where
  | obj : List (String × Json) → Json
  | arr : List Json → Json
  | str : String → Json
  | num : Dec → Json
  | bool : Bool → Json
  | null : Json
deriving Repr

/-- First value bound to `k` in an object's field list (Python dict keys
are unique, so first = only). -/
def jLookup (l : List (String × Json)) (k : String) : Option Json :=
  match l with
  | [] => none
  | (k', v) :: rest => if k' = k then some v else jLookup rest k

/-- Python truthiness of a decoded JSON value. -/
def pyTruthy : Json → Bool
  | .obj l => ¬ l.isEmpty
  | .arr l => ¬ l.isEmpty
  | .str s => ¬ s.isEmpty
  | .num v => v.mant ≠ 0
  | .bool b => b
  | .null => false

/-- Python `k in v`: key test on dicts, membership on lists, substring on
strings; `TypeError` on non-iterables. -/
def pyIn (k : String) : Json → Except PyErr Bool
  | .obj l => .ok ((jLookup l k).isSome)
  | .arr l => .ok (l.any (fun v => match v with | .str s => s == k | _ => false))
  | .str s => .ok (strContains s k)
  | _ => .error .typeErr

/-- Python `v[k]` for a string key: lookup on dicts (`KeyError` when
absent), `TypeError` otherwise. -/
def pySubscript (v : Json) (k : String) : Except PyErr Json :=
  match v with
  | .obj l => match jLookup l k with
    | some x => .ok x
    | none => .error (.keyErr k)
  | _ => .error .typeErr

/-- Python `v.get(k)`: `None`-defaulting lookup on dicts,
`AttributeError` on anything else. -/
def pyDictGet (v : Json) (k : String) : Except PyErr (Option Json) :=
  match v with
  | .obj l => .ok (jLookup l k)
  | _ => .error .attrErr

mutual

/-- Structural equality of JSON values, with Python's numeric
identification of booleans and numbers (`True == 1`). -/
def jsonBeq : Json → Json → Bool
  | .obj a, .obj b => jsonBeqFields a b
  | .arr a, .arr b => jsonBeqItems a b
  | .str a, .str b => a == b
  | .num a, .num b => Dec.beqNum a b
  | .bool a, .bool b => a == b
  | .num a, .bool b => Dec.isInt a (if b then 1 else 0)
  | .bool a, .num b => Dec.isInt b (if a then 1 else 0)
  | .null, .null => true
  | _, _ => false

/-- Field-list equality used by `jsonBeq`. -/
def jsonBeqFields : List (String × Json) → List (String × Json) → Bool
  | [], [] => true
  | (k, v) :: a, (k', v') :: b => k == k' && jsonBeq v v' && jsonBeqFields a b
  | _, _ => false

/-- Item-list equality used by `jsonBeq`. -/
def jsonBeqItems : List Json → List Json → Bool
  | [], [] => true
  | v :: a, v' :: b => jsonBeq v v' && jsonBeqItems a b
  | _, _ => false

end

instance : BEq Json := ⟨jsonBeq⟩

/-- Rendering of a JSON value into a string where the Python code
interpolates it into an f-string (only string values occur in practice). -/
def jsonAsName : Json → String
  | .str s => s
  | .num v => if v.exp10 = 0 then toString v.mant else renderPyFloat v
  | .bool b => if b then "True" else "False"
  | .null => "None"
  | .obj _ => "<dict>"
  | .arr _ => "<list>"

/-! ### `functools.lru_cache`

Each adapter decorates its raw-fetch operation with
`@lru_cache(maxsize=CACHE_SIZE)` (`CACHE_SIZE = 128`).  The decorator is
modelled as an explicit cache value threaded through lookups: a hit moves
the entry to most-recently-used position, a miss inserts at that position
and drops the least-recently-used entry once `cap` is exceeded.  The
behavioural claims are stated on the uncached operations (the environments
are pure, so cached and uncached results coincide); the cache itself is
the subject of the eviction claim. -/

/-- Memoization cache, most-recently-used entry first. -/
structure LruCache (α β : Type) where
  entries : List (α × β)
deriving Repr, DecidableEq

/-- One cached lookup: returns the value, the new cache state, and
whether a fresh call to `fetch` was performed. -/
def lruGet [BEq α] (cap : Nat) (fetch : α → β) (c : LruCache α β) (k : α) :
    β × LruCache α β × Bool :=
  match c.entries.lookup k with
  | some v => (v, ⟨(k, v) :: c.entries.filter (fun e => !(e.1 == k))⟩, false)
  | none =>
    let v := fetch k
    (v, ⟨((k, v) :: c.entries).take cap⟩, true)

/-- Run a sequence of cached lookups, recording for each whether it made
a fresh remote call. -/
def lruRun [BEq α] (cap : Nat) (fetch : α → β) :
    List α → LruCache α β → LruCache α β × List Bool
  | [], c => (c, [])
  | k :: ks, c =>
    let r := lruGet cap fetch c k
    let rest := lruRun cap fetch ks r.2.1
    (rest.1, r.2.2 :: rest.2)

/-- Keys currently cached, most recent first. -/
def lruKeys [BEq α] (c : LruCache α β) : List α := c.entries.map (·.1)

/-- The `CACHE_SIZE` constant shared by the adapters. -/
def CACHE_SIZE : Nat := 128

/-! ### ArrayExpress adapter (`array_express_api.py`)

The remote world is a pair of partial functions: the BioStudies JSON
document per accession and the FTP HTML listing per URL (`none` models a
request that fails or returns an error status, which the source maps
through `raise_for_status` into a caught exception).  The operations also
return the list of URLs they requested, used by the no-network claims. -/

namespace ArrayExpress

/-- Remote environment of the ArrayExpress adapter. -/
structure Net where
  json : String → Option Json
  ftp : String → Option (List HtmlRow)

/-- `BASE_FTP_URL` constant (note the trailing `E-MTAB-` from the source). -/
def BASE_FTP_URL : String := "https://ftp.ebi.ac.uk/biostudies/fire/E-MTAB-"

/-- `re.match(r"^E-MTAB-(\d+)$", acc)`: the captured digit group. -/
def accessionDigits (s : String) : Option String :=
  if pyStartsWith s "E-MTAB-" then
    let rest := s.drop 7
    if rest ≠ "" ∧ rest.data.all Char.isDigit then some rest else none
  else none

/-- `generate_ftp_url`: `none` for accessions that fail the pattern. -/
def generate_ftp_url (acc : String) : Option String :=
  (accessionDigits acc).map (fun d =>
    BASE_FTP_URL ++ "/" ++ d.takeRight 3 ++ "/" ++ acc ++ "/Files")

/-- One table row of the FTP listing: the record appended by the loop
body of `get_all_file_names_ftp`, when the row qualifies. -/
def rowRecord (url : String) (r : HtmlRow) : Option FileDict :=
  match r.cells with
  | _ :: c1 :: c2 :: c3 :: _ =>
    match c1.anchor with
    | some name =>
      if pyStartsWith name "Parent" then none
      else some [("name", name), ("size", pyStrip c3.text),
                 ("last_modified", pyStrip c2.text),
                 ("download_url", url ++ "/" ++ name)]
    | none => none
  | _ => none

/-- `get_all_file_names_ftp`: scan rows `[3:-1]` of the listing; empty
list on pattern failure or request failure. -/
def get_all_file_names_ftp (net : Net) (acc : String) :
    List FileDict × List String :=
  match generate_ftp_url acc with
  | none => ([], [])
  | some url =>
    match net.ftp url with
    | none => ([], [url])
    | some rows => (((rows.drop 3).dropLast).filterMap (rowRecord url), [url])

/-- `check_access`: fixed error string on pattern failure (no request),
`public` on a 200 listing, `restricted` on request failure. -/
def check_access (net : Net) (acc : String) : String × List String :=
  match generate_ftp_url acc with
  | none => ("not accessible / wrong accession number", [])
  | some url =>
    match net.ftp url with
    | some _ => ("public", [url])
    | none => ("restricted", [url])

/-- `process_accession`: skips the file listing unless access is
`public`. -/
def process_accession (net : Net) (acc : String) :
    ResolutionResult × List String :=
  let a := check_access net acc
  if a.1 ≠ "public" then (⟨a.1, []⟩, a.2)
  else
    let f := get_all_file_names_ftp net acc
    (⟨a.1, f.1⟩, a.2 ++ f.2)

mutual

/-- `extract_paths` of `get_all_file_names`: walk the JSON tree, adding
each dict's `path` value (default `''`) to a set.  The Python set is
modelled as a deduplicated list in insertion order (set iteration order
is unspecified); adding an unhashable value (list or dict) raises
`TypeError`. -/
def extractPaths (found : List Json) : Json → Except PyErr (List Json)
  | .obj l =>
    let v := (jLookup l "path").getD (.str "")
    match v with
    | .obj _ => .error .typeErr
    | .arr _ => .error .typeErr
    | _ =>
      let found' := if found.any (fun w => jsonBeq w v) then found else found ++ [v]
      extractPathsFields found' l
  | .arr l => extractPathsItems found l
  | _ => .ok found

/-- Recursion of `extract_paths` over a dict's values. -/
def extractPathsFields (found : List Json) :
    List (String × Json) → Except PyErr (List Json)
  | [] => .ok found
  | (_, v) :: rest => do extractPathsFields (← extractPaths found v) rest

/-- Recursion of `extract_paths` over a list's items. -/
def extractPathsItems (found : List Json) :
    List Json → Except PyErr (List Json)
  | [] => .ok found
  | v :: rest => do extractPathsItems (← extractPaths found v) rest

end

/-- `get_all_file_names` (JSON variant): collected paths with falsy
values removed; empty on request failure or a falsy document. -/
def get_all_file_names (net : Net) (acc : String) : Except PyErr (List Json) :=
  match net.json acc with
  | none => .ok []
  | some j =>
    if ¬ pyTruthy j then .ok []
    else (extractPaths [] j).map (fun fs => fs.filter pyTruthy)

end ArrayExpress

/-! ### Zenodo adapter (`zenodo_api.py`)

The `records/{id}/files` endpoint is modelled with its documented schema:
an `enabled` flag and a flat `entries` array. -/

namespace Zenodo

/-- One element of the `entries` array (absent keys as `none`). -/
structure Entry where
  key : Option String
  size : Option Int
  updated : Option String
  content : Option String
deriving Repr, DecidableEq

/-- Decoded `records/{id}/files` response. -/
structure Data where
  enabled : Option Bool
  entries : List Entry
deriving Repr, DecidableEq

/-- Remote environment of the Zenodo adapter (`none` models request or
decode failure, and the falsy empty document). -/
structure Net where
  json : String → Option Data

/-- `format_file_info`: one canonical record per entry. -/
def format_file_info (d : Data) : List FileDict :=
  d.entries.map (fun e =>
    [("name", e.key.getD "unknown"),
     ("size", format_size (Dec.ofInt (e.size.getD 0))),
     ("last_modified", format_date (e.updated.getD "")),
     ("download_url", e.content.getD "")])

/-- `process_accession`: error result when the JSON does not resolve,
otherwise access from `enabled` and the formatted entries. -/
def process_accession (net : Net) (rid : String) : ResolutionResult :=
  match net.json rid with
  | none => ⟨"not accessible / wrong repository ID", []⟩
  | some d =>
    ⟨if d.enabled.getD false then "public" else "restricted",
     format_file_info d⟩

end Zenodo

/-! ### ENCODE adapter (`encode_api.py`)

The `files/{acc}` endpoint is modelled with the fields the adapter
reads.  `no_file_available` keeps its raw JSON value because the source
compares it to the string literal `"false"`. -/

namespace Encode

/-- Decoded `files/{acc}` response. -/
structure Data where
  status : Option String
  no_file_available : Option Json
  file_size : Option Int
  date_created : Option String
  href : Option String
  file_format : Option String

/-- Remote environment of the ENCODE adapter. -/
structure Net where
  json : String → Option Data

/-- `BASE_URL` constant. -/
def BASE_URL : String := "https://www.encodeproject.org"

/-- `get_file_metadata`: one record derived from the top-level fields;
`{files: []}` when the accession does not resolve.  The
`re.search(r'.*/@@download/(.*)', href)` greedy match is modelled by
splitting on the marker and keeping the final piece. -/
def get_file_metadata (net : Net) (acc : String) : List FileDict :=
  match net.json acc with
  | none => []
  | some d =>
    let formatted_size :=
      match d.file_size with
      | some n => if n ≠ 0 then format_size (Dec.ofInt n) else "unknown"
      | none => "unknown"
    let formatted_date :=
      match d.date_created with
      | some s => if s ≠ "" then format_date s else "unknown"
      | none => "unknown"
    let href := d.href.getD ""
    let parts := pySplitOn href "/@@download/"
    let file_name :=
      if 2 ≤ parts.length then parts.getLastD ""
      else acc ++ "." ++ d.file_format.getD ""
    let download_link := BASE_URL ++ "/files/" ++ acc ++ "/@@download/" ++ file_name
    [[("name", file_name), ("size", formatted_size),
      ("last_modified", formatted_date), ("download_url", download_link)]]

/-- `get_access`: fixed error string when unresolvable; the
`no_file_available == "false"` comparison is kept exactly as written. -/
def get_access (net : Net) (acc : String) : String :=
  match net.json acc with
  | none => "Wrong accession code"
  | some d =>
    if (d.no_file_available == some (Json.str "false")) &&
        !(d.status == some "released") then "no data deposited"
    else if d.status == some "released" then "public"
    else "not yet released"

/-- `process_accession`: access status and the (unconditionally
computed) file metadata. -/
def process_accession (net : Net) (acc : String) : ResolutionResult :=
  ⟨get_access net acc, get_file_metadata net acc⟩

end Encode

/-! ### GWAS adapter (`gwas_api.py`)

The remote world is the REST `studies` endpoint (does it resolve?) and
the FTP directory pages, both keyed by full URL.  `generate_range_string`
runs `int(acc[4:])` with no guard, so operations that build an FTP URL
are `Except`-valued.  The unbounded Python recursion of
`extract_all_files` is modelled with an explicit remaining-depth budget:
exhausting it is `RecursionError`, exactly as CPython would fail on a
server tree deeper than the interpreter's recursion limit. -/

namespace GWAS

/-- Remote environment of the GWAS adapter. -/
structure Net where
  api : String → Bool
  ftp : String → Option (List HtmlRow)

/-- `FTP_BASE_URL` constant. -/
def FTP_BASE_URL : String :=
  "https://ftp.ebi.ac.uk/pub/databases/gwas/summary_statistics"

/-- `API_BASE_URL` constant. -/
def API_BASE_URL : String := "https://www.ebi.ac.uk/gwas/rest/api"

/-- Python `float(s)` on the simple decimal forms the size column uses
(optional sign, digits, at most one dot). -/
def pyFloat (s : String) : Option Dec :=
  let t := pyStrip s
  let signBody : Bool × List Char :=
    match t.data with
    | '-' :: r => (true, r)
    | '+' :: r => (false, r)
    | r => (false, r)
  let neg := signBody.1
  let (ip, r1) := takeNum signBody.2
  match r1 with
  | [] => (digitsToNat ip).map (fun n => ⟨if neg then -(n : Int) else (n : Int), 0⟩)
  | '.' :: r2 =>
    let (fp, r3) := takeNum r2
    if r3.isEmpty && !(ip.isEmpty && fp.isEmpty) then
      let ipn := (digitsToNat ip).getD 0
      let fpn := (digitsToNat fp).getD 0
      let m : Int := (ipn : Int) * (10 : Int) ^ fp.length + fpn
      some ⟨if neg then -m else m, fp.length⟩
    else none
  | _ => none

/-- The module-level `format_size` of `gwas_api.py` (string based, not
the one in `utils.py`). -/
def format_size (size_str : String) : String :=
  if pyStrip size_str = "-" ∨ pyStrip size_str = "" then "0B"
  else if (size_str.data.getLast?.map Char.isAlpha).getD false then size_str
  else
    match pyFloat (pyReplace size_str "," "") with
    | some q => renderPyFloat q ++ "B"
    | none => size_str

/-- `generate_range_string`: raises `ValueError` (via `int`) when the
characters after position 4 are not an integer literal. -/
def generate_range_string (s : String) : Except PyErr String :=
  let pfx := s.take 4
  match pyInt (s.drop 4) with
  | none => .error .valueError
  | some number =>
    let range_start := (Int.fdiv number 1000) * 1000 + 1
    let range_end := (Int.fdiv number 1000 + 1) * 1000
    .ok (pfx ++ fmt06d range_start ++ "-" ++ pfx ++ fmt06d range_end ++ "/")

/-- URL of the `studies` REST endpoint. -/
def apiUrl (acc : String) : String := API_BASE_URL ++ "/studies/" ++ acc

/-- URL of an FTP directory page (`range` already ends in `/`). -/
def dirUrl (rs acc dir : String) : String :=
  FTP_BASE_URL ++ "/" ++ rs ++ acc ++ "/" ++ dir

/-- The loop body of `extract_all_files` for one table row: `none` for
skipped rows, a subdirectory name for rows ending in `/`, otherwise the
file record. -/
def rowItem (baseUrl dir : String) (r : HtmlRow) : Option (FileDict ⊕ String) :=
  match r.cells with
  | _ :: c1 :: c2 :: c3 :: _ =>
    match c1.anchor with
    | none => none
    | some a =>
      let file_name := pyStrip a
      if strContains file_name "Parent Directory" then none
      else
        let last_modified := pyStrip c2.text
        let size := pyStrip c3.text
        if pyEndsWith file_name "/" then some (.inr file_name)
        else
          some (.inl [("name", dir ++ file_name), ("size", format_size size),
                      ("last_modified", last_modified),
                      ("download_url", baseUrl ++ file_name)])
  | _ => none

/-- File records produced directly by one directory page. -/
def rowFiles (baseUrl dir : String) (rows : List HtmlRow) : List FileDict :=
  rows.filterMap (fun r =>
    match rowItem baseUrl dir r with
    | some (.inl f) => some f
    | _ => none)

/-- Subdirectory names discovered on one directory page. -/
def rowDirs (baseUrl dir : String) (rows : List HtmlRow) : List String :=
  rows.filterMap (fun r =>
    match rowItem baseUrl dir r with
    | some (.inr d) => some d
    | _ => none)

/-- The `for subdir in directories` loop, applied to the results of the
recursive calls in order: a subtree whose fetch failed (an error-string
result) contributes nothing; an exception aborts the loop, so the logs
of the calls the Python code would never reach are discarded. -/
def combineSubdirs :
    List (Except PyErr (String ⊕ List FileDict) × List String) →
      Except PyErr (List FileDict) × List String
  | [] => (.ok [], [])
  | (r, log) :: rest =>
    match r with
    | .error e => (.error e, log)
    | .ok sub =>
      let subFiles := match sub with | .inl _ => [] | .inr fs => fs
      let next := combineSubdirs rest
      match next.1 with
      | .error e => (.error e, log ++ next.2)
      | .ok more => (.ok (subFiles ++ more), log ++ next.2)

/-- `extract_all_files`: either the `"not accessible"` error string
(fetch failure for this directory) or the flattened records; the second
component is the list of requested URLs.  `fuel` is the remaining
recursion depth (exhausting it is Python's `RecursionError`). -/
def extract_all_files (net : Net) (acc : String) :
    Nat → String → Except PyErr (String ⊕ List FileDict) × List String
  | 0, _ => (.error .recursionError, [])
  | fuel + 1, dir =>
    match generate_range_string acc with
    | .error e => (.error e, [])
    | .ok rs =>
      let url := dirUrl rs acc dir
      match net.ftp url with
      | none => (.ok (.inl "not accessible / wrong accession number"), [url])
      | some rows =>
        let sub := combineSubdirs ((rowDirs url dir rows).map
          (fun d => extract_all_files net acc fuel (dir ++ d)))
        match sub.1 with
        | .error e => (.error e, url :: sub.2)
        | .ok more => (.ok (.inr (rowFiles url dir rows ++ more)), url :: sub.2)

/-- `get_access`: metadata request first (always issued), then the
recursive listing decides between the error string, `"no files in the
given repo"` and `"public"`. -/
def get_access (net : Net) (acc : String) (fuel : Nat) :
    Except PyErr String × List String :=
  let u := apiUrl acc
  if net.api u then
    let r := extract_all_files net acc fuel ""
    match r.1 with
    | .error e => (.error e, u :: r.2)
    | .ok (.inl s) =>
      if s = "not accessible / wrong accession number" then (.ok s, u :: r.2)
      else if s.length = 0 then (.ok "no files in the given repo", u :: r.2)
      else (.ok "public", u :: r.2)
    | .ok (.inr files) =>
      if files.length = 0 then (.ok "no files in the given repo", u :: r.2)
      else (.ok "public", u :: r.2)
  else (.ok "not accessible / wrong accession number", [u])

/-- GWAS resolution result: on the `public` path the listing is re-run
and its raw value (which may be the error string) is stored under
`files`. -/
structure Result where
  access : String
  files : String ⊕ List FileDict
deriving Repr, DecidableEq

/-- `process_accession`. -/
def process_accession (net : Net) (acc : String) (fuel : Nat) :
    Except PyErr Result × List String :=
  let a := get_access net acc fuel
  match a.1 with
  | .error e => (.error e, a.2)
  | .ok access =>
    if access = "public" then
      let r := extract_all_files net acc fuel ""
      match r.1 with
      | .error e => (.error e, a.2 ++ r.2)
      | .ok files => (.ok ⟨access, files⟩, a.2 ++ r.2)
    else (.ok ⟨access, .inr []⟩, a.2)

end GWAS

/-! ### EMDB adapter (`emdb_api.py`)

The `entry/{acc}` endpoint returns an arbitrary JSON document, walked by
the nested `search_files`.  The dataset-level modification date is
computed once from `admin.key_dates.update` and reused for every record;
`format_date` on a non-string (including the `None` from a missing
`update` key) hits the bare `except:` and yields `"unknown"`. -/

namespace EMDB

/-- Remote environment of the EMDB adapter. -/
structure Net where
  json : String → Option Json

/-- `FTP_BASE_URL` constant. -/
def FTP_BASE_URL : String :=
  "https://ftp.ebi.ac.uk/pub/databases/emdb/structures"

/-- The `last_modified` value shared by all records of one resolution:
the `admin.key_dates.update` chain of the document, `"unknown"` when the
chain is absent, a non-string, or unparsable.  Python `in` and
subscripting on non-dict intermediate values raise, hence the
`Except`. -/
def modificationDate (j : Json) : Except PyErr String := do
  let hasAdmin ← pyIn "admin" j
  if hasAdmin then
    let adminVal ← pySubscript j "admin"
    let hasKD ← pyIn "key_dates" adminVal
    if hasKD then
      let kd ← pySubscript adminVal "key_dates"
      let upd ← pyDictGet kd "update"
      match upd with
      | some (.str s) => pure (format_date s)
      | _ => pure "unknown"
    else pure (format_date "unknown")
  else pure (format_date "unknown")

/-- `size_kbytes * 1024` as fed to `format_size`: numbers (and booleans,
which are ints in Python) multiply; any other value makes `format_size`
raise `TypeError`. -/
def sizeValue : Json → Except PyErr Dec
  | .num q => .ok q
  | .bool b => .ok ⟨if b then 1 else 0, 0⟩
  | _ => .error .typeErr

/-- The record appended by `search_files` for a node carrying both a
`file` and a `size_kbytes` key. -/
def mkRecord (acc lastMod : String) (l : List (String × Json))
    (fileV : Json) (sizeQ : Dec) : FileDict :=
  let base_path := if (jLookup l "additional_map_list").isNone then "map" else "other"
  [("name", jsonAsName fileV),
   ("size", format_size (Dec.scale sizeQ 1024)),
   ("last_modified", lastMod),
   ("download_url",
    FTP_BASE_URL ++ "/" ++ acc ++ "/" ++ base_path ++ "/" ++ jsonAsName fileV)]

mutual

/-- `search_files`: preorder walk; a matching dict contributes its
record before the records found below it. -/
def searchFiles (acc lastMod : String) : Json → Except PyErr (List FileDict)
  | .obj l =>
    match jLookup l "file", jLookup l "size_kbytes" with
    | some fv, some sv => do
      let q ← sizeValue sv
      let rest ← searchFields acc lastMod l
      pure (mkRecord acc lastMod l fv q :: rest)
    | _, _ => searchFields acc lastMod l
  | .arr l => searchItems acc lastMod l
  | _ => .ok []

/-- `search_files` over the values of a dict, in insertion order. -/
def searchFields (acc lastMod : String) :
    List (String × Json) → Except PyErr (List FileDict)
  | [] => .ok []
  | (_, v) :: rest => do
    let a ← searchFiles acc lastMod v
    let b ← searchFields acc lastMod rest
    pure (a ++ b)

/-- `search_files` over the items of a list, in order. -/
def searchItems (acc lastMod : String) :
    List Json → Except PyErr (List FileDict)
  | [] => .ok []
  | v :: rest => do
    let a ← searchFiles acc lastMod v
    let b ← searchItems acc lastMod rest
    pure (a ++ b)

end

/-- `get_file_details`: `none` for an unresolvable or falsy document and
for an empty result. -/
def get_file_details (net : Net) (acc : String) :
    Except PyErr (Option (List FileDict)) :=
  match net.json acc with
  | none => .ok none
  | some j =>
    if ¬ pyTruthy j then .ok none
    else do
      let lastMod ← modificationDate j
      let files ← searchFiles acc lastMod j
      pure (if files.isEmpty then none else some files)

/-- `get_access`: `public` whenever the dataset JSON resolves (`is None`
test, so even a falsy document is public). -/
def get_access (net : Net) (acc : String) : String :=
  match net.json acc with
  | none => "not accessible / wrong repository ID"
  | some _ => "public"

/-- `process_accession`. -/
def process_accession (net : Net) (acc : String) :
    Except PyErr ResolutionResult := do
  let files ← get_file_details net acc
  pure ⟨get_access net acc, files.getD []⟩

end EMDB

/-! ### OSF adapter (`osf_api.py`)

`check_access` reads a UI marker from the project page; the file listing
uses the JSON API, with `pandas.json_normalize` flattening each entry
list into a column frame.  Column access is frame-wide: indexing a column
that no entry materialises raises `KeyError`, and a missing cell in an
existing column is a float `NaN` (rendered below by the strings pandas
arithmetic would produce: `"nan"` in f-strings, `"nanP"` out of
`format_size`).  `ThreadPoolExecutor(max_workers=0)` — which the source
constructs whenever no folder rows exist — raises `ValueError`. -/

namespace OSF

/-- One element of the `data` array of a storage listing (absent
attributes as `none`). -/
structure Entry where
  id : Option String
  kind : Option String
  materialized_path : Option String
  size : Option Int
  date_modified : Option String
deriving Repr, DecidableEq

/-- Remote environment of the OSF adapter: the project page's marker
text (outer `none`: request failure; inner `none`: no marker) and the
storage listing per `(repo, folder?)`. -/
structure Net where
  page : String → Option (Option String)
  storage : String → Option String → Option (List Entry)

/-- `BASE_URL` constant. -/
def BASE_URL : String := "https://osf.io"

/-- `DOWNLOAD_URL` constant. -/
def DOWNLOAD_URL : String := BASE_URL ++ "/download"

/-- `check_access`: marker text when present and non-empty after
stripping. -/
def check_access (net : Net) (rid : String) : String :=
  match net.page rid with
  | none => "not accessible / wrong repository ID"
  | some none => "No access information found"
  | some (some t) =>
    if (pyStrip t).isEmpty then "No access information found" else pyStrip t

/-- `row.get('attributes.size', 0)` fed to `format_size`: default `0`
when the column is absent, `NaN` (formatted `"nanP"`) when only the cell
is. -/
def sizeCell (es : List Entry) (e : Entry) : String :=
  match e.size with
  | some n => format_size (Dec.ofInt n)
  | none => if es.any (fun x => x.size.isSome) then "nanP" else format_size (Dec.ofInt 0)

/-- `format_date(row.get('attributes.date_modified', ''))`: both the
`''` default and a `NaN` cell end as `"unknown"`. -/
def dateCell (e : Entry) : String :=
  match e.date_modified with
  | some d => format_date d
  | none => "unknown"

/-- `row.get('id', '')` interpolated into the download URL. -/
def idCell (es : List Entry) (e : Entry) : String :=
  match e.id with
  | some i => i
  | none => if es.any (fun x => x.id.isSome) then "nan" else ""

/-- `process_folder`: every row of a folder listing becomes a record
(note the `modified` key, unlike the `last_modified` used elsewhere);
rows that are not files carry an empty `download_url`.  A failed fetch or
a missing path column contributes no records. -/
def process_folder (net : Net) (rid fid : String) : List FileDict :=
  match net.storage rid (some fid) with
  | none => []
  | some es =>
    if es.isEmpty then []
    else if es.any (fun e => e.materialized_path.isSome) then
      es.map (fun e =>
        [("name", e.materialized_path.getD "nan"),
         ("size", sizeCell es e),
         ("modified", dateCell e),
         ("download_url",
          if e.kind == some "file" then DOWNLOAD_URL ++ "/" ++ idCell es e
          else "")])
    else []

/-- `get_all_file_names`: top-level file rows, then one fan-out call per
folder id.  `executor.map` yields folder results in submission order.
The `KeyError`/`ValueError` cases mirror the frame-wide column accesses
and the zero-worker pool. -/
def get_all_file_names (net : Net) (rid : String) :
    Except PyErr (List FileDict) :=
  match net.storage rid none with
  | none => .ok []
  | some es =>
    if es.isEmpty then .ok []
    else if ¬ es.any (fun e => e.kind.isSome) then .error (.keyErr "attributes.kind")
    else
      let fileRows := es.filter (fun e => e.kind == some "file")
      if ¬ fileRows.isEmpty ∧ ¬ es.any (fun e => e.materialized_path.isSome) then
        .error (.keyErr "attributes.materialized_path")
      else
        let filesTop := fileRows.map (fun e =>
          [("name", e.materialized_path.getD "nan"),
           ("size", sizeCell es e),
           ("last_modified", dateCell e),
           ("download_url", DOWNLOAD_URL ++ "/" ++ idCell es e)])
        if ¬ es.any (fun e => e.id.isSome) then .error (.keyErr "id")
        else
          let folder_ids := (es.filter (fun e => e.kind == some "folder")).map (idCell es)
          if folder_ids.isEmpty then .error .poolError
          else .ok (filesTop ++ (folder_ids.map (process_folder net rid)).flatten)

/-- `process_accession`: the three error statuses short-circuit with an
empty listing; any other marker text is lowercased and the listing is
fetched. -/
def process_accession (net : Net) (rid : String) :
    Except PyErr ResolutionResult :=
  let repo_access := check_access net rid
  if repo_access = "not accessible / wrong repository ID" ∨
      repo_access = "Failed to fetch data" ∨
      repo_access = "No access information found" then
    .ok ⟨repo_access, []⟩
  else
    (get_all_file_names net rid).map (fun fs => ⟨pyToLower repo_access, fs⟩)

end OSF

namespace EMDB

mutual

/-- Condition under which `search_files` raises no `TypeError`: every
dict node carrying both a `file` and a `size_kbytes` key has a numeric
(or boolean) size value. -/
def sizesOk : Json → Bool
  | .obj l =>
    (match jLookup l "file", jLookup l "size_kbytes" with
     | some _, some sv =>
       (match sv with | .num _ => true | .bool _ => true | _ => false)
     | _, _ => true) && sizesOkFields l
  | .arr l => sizesOkItems l
  | _ => true

/-- `sizesOk` over a dict's values. -/
def sizesOkFields : List (String × Json) → Bool
  | [] => true
  | (_, v) :: rest => sizesOk v && sizesOkFields rest

/-- `sizesOk` over a list's items. -/
def sizesOkItems : List Json → Bool
  | [] => true
  | v :: rest => sizesOk v && sizesOkItems rest

end

end EMDB

/-! ### Concrete fixtures used by the witnesses, counterexamples and
evaluation theorems. -/

/-- A directory-listing row whose second cell holds an anchor. -/
def fxRow (name lm sz : String) : HtmlRow :=
  ⟨[⟨"", none⟩, ⟨name, some name⟩, ⟨lm, none⟩, ⟨sz, none⟩]⟩

/-- A header/footer row with too few cells. -/
def fxHdr : HtmlRow := ⟨[⟨"", none⟩]⟩

/-- The `Parent Directory` row. -/
def fxParent : HtmlRow := fxRow "Parent Directory" "" "-"

/-- The range directory of `GCST90027158`. -/
def fxRange : String := "GCST90027001-GCST90028000/"

/-- GWAS environment: a three-level tree (root → `sub1/`, `sub2/` → one
file each). -/
def fxGwas3 : GWAS.Net :=
  { api := fun _ => true,
    ftp := fun u =>
      if u = GWAS.dirUrl fxRange "GCST90027158" "" then
        some [fxHdr, fxParent, fxRow "sub1/" "2021-01-01 10:00" "-",
              fxRow "sub2/" "2021-01-01 10:00" "-"]
      else if u = GWAS.dirUrl fxRange "GCST90027158" "sub1/" then
        some [fxHdr, fxParent, fxRow "a.txt" "2021-01-02 11:00" "123"]
      else if u = GWAS.dirUrl fxRange "GCST90027158" "sub2/" then
        some [fxHdr, fxParent, fxRow "b.txt" "2021-01-03 12:00" "4,096"]
      else none }

/-- The two records the three-level tree flattens to. -/
def fxGwas3Files : List FileDict :=
  [[("name", "sub1/a.txt"), ("size", "123.0B"),
    ("last_modified", "2021-01-02 11:00"),
    ("download_url", GWAS.dirUrl fxRange "GCST90027158" "sub1/" ++ "a.txt")],
   [("name", "sub2/b.txt"), ("size", "4096.0B"),
    ("last_modified", "2021-01-03 12:00"),
    ("download_url", GWAS.dirUrl fxRange "GCST90027158" "sub2/" ++ "b.txt")]]

/-- GWAS environment where nothing resolves. -/
def fxGwasDead : GWAS.Net := ⟨fun _ => false, fun _ => none⟩

/-- GWAS environment where the metadata resolves and every directory
page is an empty table. -/
def fxGwasEmpty : GWAS.Net := ⟨fun _ => true, fun _ => some []⟩

/-- EMDB document with two file nodes (1024 and 2048 kbytes) and a
dataset-level update date. -/
def fxEmdbDoc : Json := .obj [
  ("admin", .obj [("key_dates", .obj [("update", .str "2022-03-01")])]),
  ("map", .obj [("file", .str "emd_1.map.gz"), ("size_kbytes", .num ⟨1024, 0⟩)]),
  ("interpretation", .arr [.obj [("file", .str "x.tif"),
    ("size_kbytes", .num ⟨2048, 0⟩), ("additional_map_list", .null)]])]

/-- EMDB environment resolving `EMD-25583` to `fxEmdbDoc`. -/
def fxEmdbNet : EMDB.Net :=
  ⟨fun a => if a = "EMD-25583" then some fxEmdbDoc else none⟩

/-- The records `fxEmdbDoc` extracts to. -/
def fxEmdbFiles : List FileDict :=
  [[("name", "emd_1.map.gz"), ("size", "1.0M"),
    ("last_modified", "2022-03-01 00:00"),
    ("download_url",
     EMDB.FTP_BASE_URL ++ "/EMD-25583/map/emd_1.map.gz")],
   [("name", "x.tif"), ("size", "2.0M"),
    ("last_modified", "2022-03-01 00:00"),
    ("download_url",
     EMDB.FTP_BASE_URL ++ "/EMD-25583/other/x.tif")]]

/-- ENCODE response with a non-released status and full file data. -/
def fxEncData : Encode.Data :=
  ⟨some "archived", none, some 2500, some "2020-05-05T01:02:03Z",
   some "/files/ENCFF682WPF/@@download/ENCFF682WPF.bed.gz", some "bed"⟩

/-- ENCODE environment resolving every accession to `fxEncData`. -/
def fxEncNet : Encode.Net := ⟨fun _ => some fxEncData⟩

/-- ENCODE response that reports absence of file data
(`no_file_available` is the boolean `true`) with a non-released
status. -/
def fxEncNfaTrueData : Encode.Data :=
  ⟨some "in progress", some (.bool true), none, none, none, none⟩

/-- ENCODE environment resolving every accession to
`fxEncNfaTrueData`. -/
def fxEncNfaTrue : Encode.Net := ⟨fun _ => some fxEncNfaTrueData⟩

/-- A top-level OSF file entry. -/
def fxOsfFile (i p : String) (n : Int) : OSF.Entry :=
  ⟨some i, some "file", some p, some n, some "2021-06-01T00:00:00Z"⟩

/-- A top-level OSF folder entry. -/
def fxOsfFolder (i p : String) : OSF.Entry :=
  ⟨some i, some "folder", some p, none, none⟩

/-- OSF environment: a public project with one top-level file and one
folder containing one file. -/
def fxOsfNet : OSF.Net :=
  { page := fun r => if r = "bgw73" then some (some "Public") else none,
    storage := fun r f =>
      if r = "bgw73" then
        match f with
        | none => some [fxOsfFile "f1" "/a.txt" 100, fxOsfFolder "d1" "/sub/"]
        | some fid => if fid = "d1" then some [fxOsfFile "f2" "/sub/b.txt" 2048] else none
      else none }

/-- The resolution result of `fxOsfNet` (note the `modified` key in the
folder-derived record). -/
def fxOsfResult : ResolutionResult :=
  ⟨"public",
   [[("name", "/a.txt"), ("size", "100.0B"),
     ("last_modified", "2021-06-01 00:00"),
     ("download_url", OSF.DOWNLOAD_URL ++ "/f1")],
    [("name", "/sub/b.txt"), ("size", "2.0K"),
     ("modified", "2021-06-01 00:00"),
     ("download_url", OSF.DOWNLOAD_URL ++ "/f2")]]⟩

/-- OSF environment whose root listing has a file but no folder
(`ThreadPoolExecutor(max_workers=0)` territory). -/
def fxOsfNoFolders : OSF.Net :=
  { page := fun _ => some (some "Public"),
    storage := fun _ f => if f = none then some [fxOsfFile "f1" "/a.txt" 5] else none }

/-- ArrayExpress environment whose FTP listing has two data rows. -/
def fxAeNet : ArrayExpress.Net :=
  { json := fun _ => some (.obj [("path", .str "p1"),
      ("section", .arr [.obj [("path", .str "p2")], .obj [("path", .str "p1")], .obj []])]),
    ftp := fun _ => some [fxHdr, fxHdr, fxHdr,
      fxRow "f.txt" "2021-05-01 00:00" "1K", fxRow "g.txt" "2021-05-02 00:00" "2K", fxHdr] }

/-- Zenodo environment: a restricted record with one entry. -/
def fxZenNet : Zenodo.Net :=
  ⟨fun _ => some ⟨some false,
    [⟨some "data.csv", some 10, some "2021-01-01T05:06:07+00:00", some "https://z/content"⟩]⟩⟩

/-- 129 distinct cache keys. -/
def fxKeys : List String := (List.range 129).map (fun i => "a" ++ toString i)

/-- The identity fetcher used in the cache experiments. -/
def fxFetch : String → String := fun k => k

/-- The cache-lookup sequence of the eviction counterexample: fill the
cache with keys 0..127, re-use key 0, insert key 128, then look key 0 up
again. -/
def fxCacheSeq : List String := (fxKeys.take 128) ++ ["a0", "a128", "a0"]


/-! ## Helper lemmas -/

theorem grs_err (s : String) (h : pyInt (s.drop 4) = none) :
    GWAS.generate_range_string s = .error .valueError := by
  simp [GWAS.generate_range_string, h]

theorem grs_ok (s : String) (h : pyInt (s.drop 4) ≠ none) :
    ∃ rs, GWAS.generate_range_string s = .ok rs := by
  rcases ho : pyInt (s.drop 4) with _ | n
  · exact absurd ho h
  · exact ⟨s.take 4 ++ fmt06d (n.fdiv 1000 * 1000 + 1) ++ "-" ++ s.take 4 ++
      fmt06d ((n.fdiv 1000 + 1) * 1000) ++ "/",
      by simp only [GWAS.generate_range_string, ho]⟩

theorem gwas_extract_inl (net : GWAS.Net) (acc dir : String) (fuel : Nat) (s : String)
    (h : (GWAS.extract_all_files net acc fuel dir).1 = .ok (.inl s)) :
    s = "not accessible / wrong accession number" := by
  match fuel with
  | 0 => simp [GWAS.extract_all_files] at h
  | fuel' + 1 =>
    rw [GWAS.extract_all_files] at h
    cases hg : GWAS.generate_range_string acc with
    | error e => simp [hg] at h
    | ok rs =>
      simp only [hg] at h
      cases hf : net.ftp (GWAS.dirUrl rs acc dir) with
      | none =>
        simp only [hf] at h
        exact ((Sum.inl.injEq _ _).mp ((Except.ok.injEq _ _).mp h)).symm
      | some rows =>
        simp only [hf] at h
        cases hs : (GWAS.combineSubdirs ((GWAS.rowDirs (GWAS.dirUrl rs acc dir) dir rows).map
            (fun d => GWAS.extract_all_files net acc fuel' (dir ++ d)))).1 with
        | error e => simp [hs] at h
        | ok more => simp [hs] at h

theorem gwas_log_head_access (net : GWAS.Net) (acc : String) (fuel : Nat) :
    ∃ rest, (GWAS.get_access net acc fuel).2 = GWAS.apiUrl acc :: rest := by
  cases hapi : net.api (GWAS.apiUrl acc) with
  | false => exact ⟨[], by simp [GWAS.get_access, hapi]⟩
  | true =>
    refine ⟨(GWAS.extract_all_files net acc fuel "").2, ?_⟩
    simp only [GWAS.get_access, hapi, if_true]
    generalize GWAS.extract_all_files net acc fuel "" = p
    obtain ⟨r1, r2⟩ := p
    cases r1 with
    | error e => rfl
    | ok v =>
      cases v with
      | inl s =>
        by_cases h1 : s = "not accessible / wrong accession number"
        · simp [h1]
        · by_cases h2 : s.length = 0 <;> simp [h1, h2]
      | inr files =>
        by_cases h2 : files.length = 0 <;> simp [h2]

theorem gwas_log_head_process (net : GWAS.Net) (acc : String) (fuel : Nat) :
    ∃ rest, (GWAS.process_accession net acc fuel).2 = GWAS.apiUrl acc :: rest := by
  obtain ⟨rest, hrest⟩ := gwas_log_head_access net acc fuel
  simp only [GWAS.process_accession]
  cases ha : (GWAS.get_access net acc fuel).1 with
  | error e => exact ⟨rest, hrest⟩
  | ok access =>
    by_cases hp : access = "public"
    · simp only [hp, if_true]
      cases he : (GWAS.extract_all_files net acc fuel "").1 with
      | error e =>
        exact ⟨rest ++ (GWAS.extract_all_files net acc fuel "").2, by simp [hrest]⟩
      | ok files =>
        exact ⟨rest ++ (GWAS.extract_all_files net acc fuel "").2, by simp [hrest]⟩
    · simp only [hp, if_false]
      exact ⟨rest, hrest⟩

/-! ## Claims -/

/-- C5: GWAS `get_access` returns `"not accessible / wrong accession
number"` when the study-metadata endpoint does not resolve; returns
`"no files in the given repo"` (not `"public"`) when the metadata
resolves but the recursive file listing is empty; and returns
`"public"` exactly when the metadata resolves and the recursive file
listing is a non-empty list. -/
theorem c5_gwas_access (net : GWAS.Net) (acc : String) (fuel : Nat) :
    (net.api (GWAS.apiUrl acc) = false →
      (GWAS.get_access net acc fuel).1 = .ok "not accessible / wrong accession number") ∧
    (net.api (GWAS.apiUrl acc) = true →
      (GWAS.extract_all_files net acc fuel "").1 = .ok (.inr []) →
      (GWAS.get_access net acc fuel).1 = .ok "no files in the given repo") ∧
    ((GWAS.get_access net acc fuel).1 = .ok "public" ↔
      net.api (GWAS.apiUrl acc) = true ∧
      ∃ l, (GWAS.extract_all_files net acc fuel "").1 = .ok (.inr l) ∧ l ≠ []) := by
  refine ⟨?_, ?_, ?_, ?_⟩
  · intro hapi
    simp [GWAS.get_access, hapi]
  · intro hapi hext
    simp [GWAS.get_access, hapi, hext]
  · intro h
    cases hapi : net.api (GWAS.apiUrl acc) with
    | false => simp [GWAS.get_access, hapi] at h
    | true =>
      refine ⟨rfl, ?_⟩
      cases he : (GWAS.extract_all_files net acc fuel "").1 with
      | error e => simp [GWAS.get_access, hapi, he] at h
      | ok v =>
        cases v with
        | inl s =>
          have hs := gwas_extract_inl net acc "" fuel s he
          subst hs
          simp [GWAS.get_access, hapi, he] at h
        | inr files =>
          refine ⟨files, rfl, ?_⟩
          intro hnil
          subst hnil
          simp [GWAS.get_access, hapi, he] at h
  · rintro ⟨hapi, l, he, hne⟩
    have hlen : l.length ≠ 0 := fun h0 => hne (List.length_eq_zero.mp h0)
    simp [GWAS.get_access, hapi, he, hlen]

/-- C5 witness: the three access outcomes at concrete environments. -/
theorem c5_gwas_access_witness :
    (GWAS.get_access fxGwasDead "GCST000123" 3).1 = .ok "not accessible / wrong accession number" ∧
    (GWAS.get_access fxGwasEmpty "GCST000123" 3).1 = .ok "no files in the given repo" ∧
    (GWAS.get_access fxGwas3 "GCST90027158" 5).1 = .ok "public" := by
  refine ⟨(c5_gwas_access fxGwasDead "GCST000123" 3).1 rfl,
          (c5_gwas_access fxGwasEmpty "GCST000123" 3).2.1 rfl (by decide),
          (c5_gwas_access fxGwas3 "GCST90027158" 5).2.2.mpr
            ⟨rfl, fxGwas3Files, by decide, by decide⟩⟩

/-- C6: the GWAS extractor skips rows with fewer than 4 columns or no
anchor in column 2 and discards `Parent Directory` rows; a name ending
in `/` is recorded as a subdirectory (never as a file record) and is
descended into with the name appended to the current path; every other
qualifying row becomes a record with `name = path + filename` and
`download_url = base/accession/path/filename`; a failed subdirectory
fetch contributes no records; and the three-level fixture tree yields
exactly the 2 records with concatenated-path names. -/
theorem c6_gwas_extractor :
    (∀ base dir (r : HtmlRow), r.cells.length < 4 → GWAS.rowItem base dir r = none) ∧
    (∀ base dir (r : HtmlRow) c0 c1 rest, r.cells = c0 :: c1 :: rest →
      c1.anchor = none → GWAS.rowItem base dir r = none) ∧
    (∀ base dir (c0 c1 c2 c3 : Cell) rest a, c1.anchor = some a →
      strContains (pyStrip a) "Parent Directory" = true →
      GWAS.rowItem base dir ⟨c0 :: c1 :: c2 :: c3 :: rest⟩ = none) ∧
    (∀ base dir (r : HtmlRow) rec, GWAS.rowItem base dir r = some (.inl rec) →
      ∃ fn sz lm, pyEndsWith fn "/" = false ∧
        rec = [("name", dir ++ fn), ("size", GWAS.format_size sz),
               ("last_modified", lm), ("download_url", base ++ fn)]) ∧
    (∀ base dir (r : HtmlRow) d, GWAS.rowItem base dir r = some (.inr d) →
      pyEndsWith d "/" = true) ∧
    (∀ (net : GWAS.Net) acc dir fuel rs rows more,
      GWAS.generate_range_string acc = .ok rs →
      net.ftp (GWAS.dirUrl rs acc dir) = some rows →
      (GWAS.combineSubdirs ((GWAS.rowDirs (GWAS.dirUrl rs acc dir) dir rows).map
        (fun d => GWAS.extract_all_files net acc fuel (dir ++ d)))).1 = .ok more →
      (GWAS.extract_all_files net acc (fuel + 1) dir).1 =
        .ok (.inr (GWAS.rowFiles (GWAS.dirUrl rs acc dir) dir rows ++ more))) ∧
    (∀ (s : String) (log : List String)
        (rest : List (Except PyErr (String ⊕ List FileDict) × List String)),
      (GWAS.combineSubdirs ((.ok (.inl s), log) :: rest)).1 = (GWAS.combineSubdirs rest).1) ∧
    ((GWAS.extract_all_files fxGwas3 "GCST90027158" 5 "").1 = .ok (.inr fxGwas3Files) ∧
      fxGwas3Files.map (fun r => r.lookup "name") = [some "sub1/a.txt", some "sub2/b.txt"] ∧
      fxGwas3Files.length = 2) := by
  refine ⟨?_, ?_, ?_, ?_, ?_, ?_, ?_, ?_⟩
  · rintro base dir ⟨cs⟩ h
    rcases cs with _ | ⟨c0, _ | ⟨c1, _ | ⟨c2, _ | ⟨c3, rest⟩⟩⟩⟩ <;>
      first
        | rfl
        | (exact absurd h (by simp))
  · rintro base dir ⟨cs⟩ c0 c1 rest hcs han
    cases hcs
    rcases rest with _ | ⟨c2, _ | ⟨c3, rest'⟩⟩ <;> simp [GWAS.rowItem, han]
  · intro base dir c0 c1 c2 c3 rest a ha hpar
    simp [GWAS.rowItem, ha, hpar]
  · rintro base dir ⟨cs⟩ rec h
    rcases cs with _ | ⟨c0, cs⟩
    · exact absurd h (by simp [GWAS.rowItem])
    rcases cs with _ | ⟨c1, cs⟩
    · exact absurd h (by simp [GWAS.rowItem])
    rcases cs with _ | ⟨c2, cs⟩
    · exact absurd h (by simp [GWAS.rowItem])
    rcases cs with _ | ⟨c3, rest⟩
    · exact absurd h (by simp [GWAS.rowItem])
    simp only [GWAS.rowItem] at h
    cases han : c1.anchor with
    | none => simp [han] at h
    | some a =>
      simp only [han] at h
      split at h
      · exact absurd h (by simp)
      · split at h
        · exact absurd h (by simp)
        · refine ⟨pyStrip a, pyStrip c3.text, pyStrip c2.text, by simp_all, ?_⟩
          exact ((Sum.inl.injEq _ _).mp ((Option.some.injEq _ _).mp h)).symm
  · rintro base dir ⟨cs⟩ d h
    rcases cs with _ | ⟨c0, cs⟩
    · exact absurd h (by simp [GWAS.rowItem])
    rcases cs with _ | ⟨c1, cs⟩
    · exact absurd h (by simp [GWAS.rowItem])
    rcases cs with _ | ⟨c2, cs⟩
    · exact absurd h (by simp [GWAS.rowItem])
    rcases cs with _ | ⟨c3, rest⟩
    · exact absurd h (by simp [GWAS.rowItem])
    simp only [GWAS.rowItem] at h
    cases han : c1.anchor with
    | none => simp [han] at h
    | some a =>
      simp only [han] at h
      split at h
      · exact absurd h (by simp)
      · split at h
        · rename_i hslash
          have hd : pyStrip a = d :=
            (Sum.inr.injEq _ _).mp ((Option.some.injEq _ _).mp h)
          rw [← hd]
          exact hslash
        · exact absurd h (by simp)
  · intro net acc dir fuel rs rows more hg hf hs
    rw [GWAS.extract_all_files]
    simp only [hg, hf, hs]
  · intro s log rest
    cases h : (GWAS.combineSubdirs rest).1 <;> simp [GWAS.combineSubdirs, h]
  · exact ⟨by decide, by decide, by decide⟩

/-- C6 witness: a too-short row is skipped, a failed subtree contributes
nothing, and the fixture tree unfolds through one recursion step. -/
theorem c6_gwas_extractor_witness :
    GWAS.rowItem "b/" "p/" ⟨[]⟩ = none ∧
    (GWAS.combineSubdirs
      [(.ok (.inl "not accessible / wrong accession number"), ["u"])]).1 =
      (GWAS.combineSubdirs []).1 ∧
    (GWAS.extract_all_files fxGwas3 "GCST90027158" 5 "").1 =
      .ok (.inr (GWAS.rowFiles (GWAS.dirUrl fxRange "GCST90027158" "") ""
        [fxHdr, fxParent, fxRow "sub1/" "2021-01-01 10:00" "-",
         fxRow "sub2/" "2021-01-01 10:00" "-"] ++ fxGwas3Files)) := by
  refine ⟨c6_gwas_extractor.1 "b/" "p/" ⟨[]⟩ (by decide),
          c6_gwas_extractor.2.2.2.2.2.2.1 "not accessible / wrong accession number" ["u"] [],
          c6_gwas_extractor.2.2.2.2.2.1 fxGwas3 "GCST90027158" "" 4 fxRange
            [fxHdr, fxParent, fxRow "sub1/" "2021-01-01 10:00" "-",
             fxRow "sub2/" "2021-01-01 10:00" "-"] fxGwas3Files
            (by decide) (by decide) (by decide)⟩

/-- C2 counterexample: `"BAD"` is malformed for GWAS (its tail after
position 4 is not an integer literal), yet `get_access` issues the
study-metadata request for it — the malformed accession reaches the
network layer. -/
theorem c2_counterexample :
    pyInt ("BAD".drop 4) = none ∧
    (GWAS.get_access fxGwasDead "BAD" 5).2 = [GWAS.apiUrl "BAD"] := by
  exact ⟨by decide, by decide⟩

/-- C2 amended: ArrayExpress operations issue no request on
pattern-malformed accessions, and GWAS `extract_all_files` issues none
when `int(acc[4:])` fails (it raises first); but GWAS `get_access` and
`process_accession` always issue the study-metadata request first, for
every accession, malformed or not. -/
theorem c2_amended :
    (∀ (net : ArrayExpress.Net) acc, ArrayExpress.accessionDigits acc = none →
      (ArrayExpress.check_access net acc).2 = [] ∧
      (ArrayExpress.get_all_file_names_ftp net acc).2 = [] ∧
      (ArrayExpress.process_accession net acc).2 = []) ∧
    (∀ (net : GWAS.Net) acc dir fuel, pyInt (acc.drop 4) = none →
      (GWAS.extract_all_files net acc fuel dir).2 = []) ∧
    (∀ (net : GWAS.Net) acc fuel, ∃ rest,
      (GWAS.get_access net acc fuel).2 = GWAS.apiUrl acc :: rest) ∧
    (∀ (net : GWAS.Net) acc fuel, ∃ rest,
      (GWAS.process_accession net acc fuel).2 = GWAS.apiUrl acc :: rest) := by
  refine ⟨?_, ?_, gwas_log_head_access, gwas_log_head_process⟩
  · intro net acc h
    have hurl : ArrayExpress.generate_ftp_url acc = none := by
      simp [ArrayExpress.generate_ftp_url, h]
    have hca : ArrayExpress.check_access net acc =
        ("not accessible / wrong accession number", []) := by
      simp [ArrayExpress.check_access, hurl]
    refine ⟨by simp [hca], by simp [ArrayExpress.get_all_file_names_ftp, hurl], ?_⟩
    simp only [ArrayExpress.process_accession, hca]
    rw [if_pos (by decide)]
  · intro net acc dir fuel h
    match fuel with
    | 0 => rfl
    | fuel' + 1 =>
      rw [GWAS.extract_all_files]
      simp [grs_err acc h]

/-- C2 amended witness: concrete malformed accessions. -/
theorem c2_amended_witness :
    (ArrayExpress.process_accession
      ⟨fun _ => none, fun _ => none⟩ "E-MTAB-").2 = [] ∧
    (GWAS.extract_all_files fxGwasDead "BAD" 7 "").2 = [] ∧
    (∃ rest, (GWAS.get_access fxGwasDead "GCST1" 1).2 = GWAS.apiUrl "GCST1" :: rest) := by
  exact ⟨(c2_amended.1 ⟨fun _ => none, fun _ => none⟩ "E-MTAB-" (by decide)).2.2,
         c2_amended.2.1 fxGwasDead "BAD" "" 7 (by decide),
         c2_amended.2.2.1 fxGwasDead "GCST1" 1⟩

/-- C3 counterexample: an ENCODE accession whose JSON resolves with a
non-released status gets access `"not yet released"` (not `"public"`),
yet `process_accession` still returns a non-empty file list. -/
theorem c3_counterexample :
    (Encode.process_accession fxEncNet "ENCFF682WPF").access = "not yet released" ∧
    (Encode.process_accession fxEncNet "ENCFF682WPF").access ≠ "public" ∧
    (Encode.process_accession fxEncNet "ENCFF682WPF").files ≠ [] := by
  exact ⟨by decide, by decide, by decide⟩

/-- C3 amended: only ArrayExpress skips the file-listing step when
access is not `public`.  ENCODE always computes its single derived
record; Zenodo formats the `entries` whenever the record JSON resolves,
whatever `enabled` says; OSF fetches the listing for every access
string outside its three error strings. -/
theorem c3_amended :
    (∀ (net : ArrayExpress.Net) acc,
      (ArrayExpress.process_accession net acc).1.access ≠ "public" →
      (ArrayExpress.process_accession net acc).1.files = []) ∧
    (∀ (net : Encode.Net) acc,
      (Encode.process_accession net acc).files = Encode.get_file_metadata net acc) ∧
    (∀ (net : Zenodo.Net) rid d, net.json rid = some d →
      Zenodo.process_accession net rid =
        ⟨if d.enabled.getD false then "public" else "restricted",
         Zenodo.format_file_info d⟩) ∧
    (∀ (net : OSF.Net) rid,
      OSF.check_access net rid ≠ "not accessible / wrong repository ID" →
      OSF.check_access net rid ≠ "Failed to fetch data" →
      OSF.check_access net rid ≠ "No access information found" →
      OSF.process_accession net rid = (OSF.get_all_file_names net rid).map
        (fun fs => ⟨pyToLower (OSF.check_access net rid), fs⟩)) := by
  refine ⟨?_, ?_, ?_, ?_⟩
  · intro net acc h
    by_cases hp : (ArrayExpress.check_access net acc).1 = "public"
    · exact absurd (show (ArrayExpress.process_accession net acc).1.access = "public" by
        simp [ArrayExpress.process_accession, hp]) h
    · simp [ArrayExpress.process_accession, hp]
  · intro net acc
    rfl
  · intro net rid d h
    simp [Zenodo.process_accession, h]
  · intro net rid h1 h2 h3
    simp [OSF.process_accession, h1, h2, h3]

/-- C3 amended witness: concrete environments for each provider. -/
theorem c3_amended_witness :
    (ArrayExpress.process_accession ⟨fun _ => none, fun _ => none⟩ "E-MTAB-10759").1.files = [] ∧
    (Encode.process_accession fxEncNet "E").files = Encode.get_file_metadata fxEncNet "E" ∧
    Zenodo.process_accession fxZenNet "7059087" =
      ⟨"restricted", Zenodo.format_file_info
        ⟨some false, [⟨some "data.csv", some 10, some "2021-01-01T05:06:07+00:00",
          some "https://z/content"⟩]⟩⟩ ∧
    OSF.process_accession fxOsfNet "bgw73" = (OSF.get_all_file_names fxOsfNet "bgw73").map
      (fun fs => ⟨pyToLower (OSF.check_access fxOsfNet "bgw73"), fs⟩) := by
  refine ⟨c3_amended.1 ⟨fun _ => none, fun _ => none⟩ "E-MTAB-10759" (by decide),
          c3_amended.2.1 fxEncNet "E", ?_,
          c3_amended.2.2.2 fxOsfNet "bgw73" (by decide) (by decide) (by decide)⟩
  have h := c3_amended.2.2.1 fxZenNet "7059087"
    ⟨some false, [⟨some "data.csv", some 10, some "2021-01-01T05:06:07+00:00",
      some "https://z/content"⟩]⟩ rfl
  simpa using h

/-- C4: at a concrete OSF project, the top-level record carries the
canonical keys `name`/`size`/`last_modified`/`download_url`, but the
record produced by `process_folder` for the file inside the sub-folder
carries `modified` instead of `last_modified` — the code deviates from
the canonical schema used by its own top-level loop and by every other
provider. -/
theorem c4_code_bug_eval :
    OSF.process_accession fxOsfNet "bgw73" = .ok fxOsfResult ∧
    fxOsfResult.files.map (fun r => r.map Prod.fst) =
      [["name", "size", "last_modified", "download_url"],
       ["name", "size", "modified", "download_url"]] ∧
    (OSF.process_folder fxOsfNet "bgw73" "d1").map (fun r => r.map Prod.fst) =
      [["name", "size", "modified", "download_url"]] := by
  exact ⟨by decide, by decide, by decide⟩

/-- C9: an ENCODE response that indicates the absence of file data
(`no_file_available` is the JSON boolean `true`) with a non-released
status is classified `"not yet released"`, not `"no data deposited"`:
the source compares `no_file_available` to the string literal
`"false"`, a branch a boolean-valued field can never take (and whose
polarity contradicts the message it guards). -/
theorem c9_code_bug_eval :
    fxEncNfaTrueData.no_file_available = some (Json.bool true) ∧
    fxEncNfaTrueData.status = some "in progress" ∧
    Encode.get_access fxEncNfaTrue "ENCSR000AAA" = "not yet released" ∧
    (∀ (net : Encode.Net) acc d, net.json acc = some d →
      d.no_file_available = some (Json.bool true) →
      Encode.get_access net acc ≠ "no data deposited") := by
  refine ⟨rfl, rfl, by decide, ?_⟩
  intro net acc d h hb
  have hcmp : (d.no_file_available == some (Json.str "false")) = false := by
    rw [hb]; rfl
  simp only [Encode.get_access, h, hcmp, Bool.false_and, Bool.false_eq_true, if_false]
  split <;> decide

theorem emdb_mkRecord_lastMod (acc m : String) (l : List (String × Json))
    (fv : Json) (q : Dec) :
    (EMDB.mkRecord acc m l fv q).lookup "last_modified" = some m := rfl

theorem emdb_mkRecord_size (acc m : String) (l : List (String × Json))
    (fv : Json) (q : Dec) :
    (EMDB.mkRecord acc m l fv q).lookup "size" =
      some (format_size (Dec.scale q 1024)) := rfl

theorem emdb_lastMod (acc m : String) : ∀ j : Json, ∀ recs,
    EMDB.searchFiles acc m j = .ok recs →
    ∀ r ∈ recs, r.lookup "last_modified" = some m := by
  refine EMDB.searchFiles.induct acc m
    (fun j => ∀ recs, EMDB.searchFiles acc m j = .ok recs →
      ∀ r ∈ recs, r.lookup "last_modified" = some m)
    (fun l => ∀ recs, EMDB.searchItems acc m l = .ok recs →
      ∀ r ∈ recs, r.lookup "last_modified" = some m)
    (fun l => ∀ recs, EMDB.searchFields acc m l = .ok recs →
      ∀ r ∈ recs, r.lookup "last_modified" = some m)
    ?_ ?_ ?_ ?_ ?_ ?_ ?_ ?_
  · intro a fv sv hsv hfv ih recs h
    rw [EMDB.searchFiles] at h
    simp only [hfv, hsv] at h
    cases hq : EMDB.sizeValue sv with
    | error e => simp [hq, Bind.bind, Except.bind] at h
    | ok q =>
      cases hF : EMDB.searchFields acc m a with
      | error e => simp [hq, hF, Bind.bind, Except.bind] at h
      | ok rest =>
        simp only [hq, hF, Bind.bind, Except.bind, pure, Except.pure,
          Except.ok.injEq] at h
        subst h
        intro r hr
        rcases List.mem_cons.mp hr with hr | hr
        · subst hr; exact emdb_mkRecord_lastMod acc m a fv q
        · exact ih rest hF r hr
  · intro a hno ih recs h
    rw [EMDB.searchFiles] at h
    cases hf : jLookup a "file" with
    | none =>
      simp only [hf] at h
      exact ih recs h
    | some fv =>
      cases hs : jLookup a "size_kbytes" with
      | none =>
        simp only [hf, hs] at h
        exact ih recs h
      | some sv => exact (hno fv sv hf hs).elim
  · intro a ih recs h
    rw [EMDB.searchFiles] at h
    exact ih recs h
  · intro t hobj harr recs h
    cases t with
    | obj l => exact (hobj l rfl).elim
    | arr l => exact (harr l rfl).elim
    | str s =>
      simp only [EMDB.searchFiles, Except.ok.injEq] at h
      subst h
      simp
    | num v =>
      simp only [EMDB.searchFiles, Except.ok.injEq] at h
      subst h
      simp
    | bool b =>
      simp only [EMDB.searchFiles, Except.ok.injEq] at h
      subst h
      simp
    | null =>
      simp only [EMDB.searchFiles, Except.ok.injEq] at h
      subst h
      simp
  · intro recs h
    rw [EMDB.searchFields] at h
    simp only [Except.ok.injEq] at h
    simp [← h]
  · intro k' v rest ih1 ih3 recs h
    rw [EMDB.searchFields] at h
    cases h1 : EMDB.searchFiles acc m v with
    | error e => simp [h1, Bind.bind, Except.bind] at h
    | ok a =>
      cases h2 : EMDB.searchFields acc m rest with
      | error e => simp [h1, h2, Bind.bind, Except.bind] at h
      | ok b =>
        simp only [h1, h2, Bind.bind, Except.bind, pure, Except.pure,
          Except.ok.injEq] at h
        subst h
        intro r hr
        rcases List.mem_append.mp hr with hr | hr
        · exact ih1 a h1 r hr
        · exact ih3 b h2 r hr
  · intro recs h
    rw [EMDB.searchItems] at h
    simp only [Except.ok.injEq] at h
    simp [← h]
  · intro v rest ih1 ih2 recs h
    rw [EMDB.searchItems] at h
    cases h1 : EMDB.searchFiles acc m v with
    | error e => simp [h1, Bind.bind, Except.bind] at h
    | ok a =>
      cases h2 : EMDB.searchItems acc m rest with
      | error e => simp [h1, h2, Bind.bind, Except.bind] at h
      | ok b =>
        simp only [h1, h2, Bind.bind, Except.bind, pure, Except.pure,
          Except.ok.injEq] at h
        subst h
        intro r hr
        rcases List.mem_append.mp hr with hr | hr
        · exact ih1 a h1 r hr
        · exact ih2 b h2 r hr

/-- C10: every record of one EMDB resolution carries the same
`last_modified` value — the formatted dataset-level
`admin.key_dates.update` field — and that value is `"unknown"` whenever
the field is missing (no `admin`, or no `update` key) or unparsable;
per-file dates are never consulted (the shared value is the only
source). -/
theorem c10_emdb_lastmod :
    (∀ (net : EMDB.Net) acc j files, net.json acc = some j →
      EMDB.get_file_details net acc = .ok (some files) →
      ∃ m, EMDB.modificationDate j = .ok m ∧
        ∀ r ∈ files, r.lookup "last_modified" = some m) ∧
    (∀ l, jLookup l "admin" = none →
      EMDB.modificationDate (.obj l) = .ok "unknown") ∧
    (∀ l al kl, jLookup l "admin" = some (.obj al) →
      jLookup al "key_dates" = some (.obj kl) → jLookup kl "update" = none →
      EMDB.modificationDate (.obj l) = .ok "unknown") ∧
    (∀ l al kl s, jLookup l "admin" = some (.obj al) →
      jLookup al "key_dates" = some (.obj kl) →
      jLookup kl "update" = some (.str s) →
      EMDB.modificationDate (.obj l) = .ok (format_date s)) ∧
    (∀ s, parseIso (pyReplace s "Z" "+00:00") = none → format_date s = "unknown") := by
  refine ⟨?_, ?_, ?_, ?_, ?_⟩
  · intro net acc j files hj h
    simp only [EMDB.get_file_details, hj] at h
    by_cases ht : pyTruthy j
    · rw [if_neg (by simp [ht])] at h
      cases hm : EMDB.modificationDate j with
      | error e => simp [hm, Bind.bind, Except.bind] at h
      | ok m =>
        cases hs : EMDB.searchFiles acc m j with
        | error e => simp [hm, hs, Bind.bind, Except.bind] at h
        | ok fs =>
          simp only [hm, hs, Bind.bind, Except.bind, pure, Except.pure,
            Except.ok.injEq] at h
          refine ⟨m, rfl, ?_⟩
          intro r hr
          by_cases hemp : fs.isEmpty
          · simp [hemp] at h
          · rw [if_neg hemp] at h
            have hfs := (Option.some.injEq _ _).mp h
            subst hfs
            exact emdb_lastMod acc m j fs hs r hr
    · simp [ht] at h
  · intro l h
    simp [EMDB.modificationDate, pyIn, h, Bind.bind, Except.bind, pure, Except.pure]
    decide
  · intro l al kl h1 h2 h3
    simp [EMDB.modificationDate, pyIn, pySubscript, pyDictGet, h1, h2, h3,
      Bind.bind, Except.bind, pure, Except.pure]
  · intro l al kl s h1 h2 h3
    simp [EMDB.modificationDate, pyIn, pySubscript, pyDictGet, h1, h2, h3,
      Bind.bind, Except.bind, pure, Except.pure]
  · intro s h
    simp [format_date, h]

/-- C10 witness: the fixture document's records all carry the formatted
dataset date, and an unparsable value formats to `"unknown"`. -/
theorem c10_emdb_lastmod_witness :
    (∃ m, EMDB.modificationDate fxEmdbDoc = .ok m ∧
      ∀ r ∈ fxEmdbFiles, r.lookup "last_modified" = some m) ∧
    format_date "unknown" = "unknown" := by
  exact ⟨c10_emdb_lastmod.1 fxEmdbNet "EMD-25583" fxEmdbDoc fxEmdbFiles rfl (by decide),
         c10_emdb_lastmod.2.2.2.2 "unknown" (by decide)⟩

/-- C7: a JSON node carrying both a `file` and a numeric `size_kbytes`
key is emitted with `size = format_size(size_kbytes * 1024)` (the
record heads the results of that subtree); in particular
`size_kbytes = 1024` yields `"1.0M"`, as the fixture document's records
show end to end. -/
theorem c7_emdb_size :
    (∀ acc lastMod (l : List (String × Json)) fv q recs,
      jLookup l "file" = some fv →
      jLookup l "size_kbytes" = some (.num q) →
      EMDB.searchFiles acc lastMod (.obj l) = .ok recs →
      ∃ rest, recs = EMDB.mkRecord acc lastMod l fv q :: rest ∧
        (EMDB.mkRecord acc lastMod l fv q).lookup "size" =
          some (format_size (Dec.scale q 1024))) ∧
    format_size (Dec.scale ⟨1024, 0⟩ 1024) = "1.0M" ∧
    EMDB.get_file_details fxEmdbNet "EMD-25583" = .ok (some fxEmdbFiles) ∧
    fxEmdbFiles.map (fun r => r.lookup "size") = [some "1.0M", some "2.0M"] := by
  refine ⟨?_, by decide, by decide, by decide⟩
  intro acc lastMod l fv q recs hfv hq h
  rw [EMDB.searchFiles] at h
  simp only [hfv, hq, EMDB.sizeValue] at h
  cases hF : EMDB.searchFields acc lastMod l with
  | error e => simp [hF, Bind.bind, Except.bind] at h
  | ok rest =>
    simp only [hF, Bind.bind, Except.bind, pure, Except.pure, Except.ok.injEq] at h
    exact ⟨rest, h.symm, emdb_mkRecord_size acc lastMod l fv q⟩

/-- C7 witness: the first fixture node. -/
theorem c7_emdb_size_witness :
    ∃ rest, [EMDB.mkRecord "EMD-25583" "2022-03-01 00:00"
        [("file", .str "emd_1.map.gz"), ("size_kbytes", .num ⟨1024, 0⟩)]
        (.str "emd_1.map.gz") ⟨1024, 0⟩] =
      EMDB.mkRecord "EMD-25583" "2022-03-01 00:00"
        [("file", .str "emd_1.map.gz"), ("size_kbytes", .num ⟨1024, 0⟩)]
        (.str "emd_1.map.gz") ⟨1024, 0⟩ :: rest ∧
      (EMDB.mkRecord "EMD-25583" "2022-03-01 00:00"
        [("file", .str "emd_1.map.gz"), ("size_kbytes", .num ⟨1024, 0⟩)]
        (.str "emd_1.map.gz") ⟨1024, 0⟩).lookup "size" =
        some (format_size (Dec.scale ⟨1024, 0⟩ 1024)) := by
  exact c7_emdb_size.1 "EMD-25583" "2022-03-01 00:00"
    [("file", .str "emd_1.map.gz"), ("size_kbytes", .num ⟨1024, 0⟩)]
    (.str "emd_1.map.gz") ⟨1024, 0⟩ _ rfl rfl (by decide)

theorem lookup_none_of_not_mem_keys (k : String) :
    ∀ l : List (String × String), k ∉ l.map Prod.fst → l.lookup k = none := by
  intro l h
  induction l with
  | nil => rfl
  | cons e t ih =>
    obtain ⟨k', v⟩ := e
    simp only [List.map_cons, List.mem_cons] at h
    push_neg at h
    have hb : (k == k') = false := beq_eq_false_iff_ne.mpr h.1
    simp only [List.lookup, hb]
    exact ih h.2

theorem not_mem_keys_take (k : String) (n : Nat) (l : List (String × String))
    (h : k ∉ l.map Prod.fst) : k ∉ (l.take n).map Prod.fst := by
  intro hm
  rw [List.map_take] at hm
  exact h (List.take_subset n _ hm)

theorem take_take_append (a l : List (String × String)) :
    ∀ n m, m ≤ n → (a ++ l.take n).take m = (a ++ l).take m := by
  induction a with
  | nil =>
    intro n m hmn
    simp [List.take_take, Nat.min_eq_left hmn]
  | cons x t ih =>
    intro n m hmn
    cases m with
    | zero => simp
    | succ m' =>
      simp only [List.cons_append, List.take_succ_cons]
      rw [ih n m' (Nat.le_of_succ_le hmn)]

theorem lruRun_fresh_entries (cap : Nat) (fetch : String → String) :
    ∀ (ks : List String) (c : LruCache String String),
      ks.Nodup → (∀ k ∈ ks, k ∉ c.entries.map Prod.fst) →
      c.entries.length ≤ cap →
      (lruRun cap fetch ks c).1.entries =
        ((ks.map (fun k => (k, fetch k))).reverse ++ c.entries).take cap := by
  intro ks
  induction ks with
  | nil =>
    intro c _ _ hlen
    simp [lruRun, List.take_of_length_le hlen]
  | cons k ks ih =>
    intro c hnd hfresh hlen
    obtain ⟨hk, hksnd⟩ := List.nodup_cons.mp hnd
    have hkl : c.entries.lookup k = none :=
      lookup_none_of_not_mem_keys k c.entries (hfresh k (by simp))
    simp only [lruRun, lruGet, hkl]
    rw [ih ⟨((k, fetch k) :: c.entries).take cap⟩ hksnd ?_ ?_]
    · show ((ks.map (fun k => (k, fetch k))).reverse ++
          ((k, fetch k) :: c.entries).take cap).take cap = _
      rw [take_take_append _ _ cap cap (le_refl cap)]
      rw [List.map_cons, List.reverse_cons, List.append_assoc]
      rfl
    · intro k' hk'
      apply not_mem_keys_take
      simp only [List.map_cons, List.mem_cons]
      push_neg
      exact ⟨fun he => hk (he ▸ hk'), hfresh k' (by simp [hk'])⟩
    · exact List.length_take_le cap _

set_option maxRecDepth 20000 in
/-- C8 counterexample: the caches are `functools.lru_cache`, not FIFO.
Fill the 128-entry cache with keys `a0..a127`, touch `a0` again, insert
`a128`: the claim says the earliest-inserted `a0` is evicted first
independent of recency, so a final lookup of `a0` should be a fresh
remote call — but the final lookup of `a0` is a cache hit (`false`),
`a0` is still cached, and it is the least-recently-used `a1` that was
evicted. -/
theorem c8_counterexample :
    (lruRun CACHE_SIZE fxFetch fxCacheSeq ⟨[]⟩).2.getLast? = some false ∧
    "a0" ∈ lruKeys (lruRun CACHE_SIZE fxFetch fxCacheSeq ⟨[]⟩).1 ∧
    "a1" ∉ lruKeys (lruRun CACHE_SIZE fxFetch fxCacheSeq ⟨[]⟩).1 := by
  exact ⟨by decide, by decide, by decide⟩

/-- C8 amended: eviction follows least-recently-used order, not
insertion order.  When no inserted key is re-used, this coincides with
the claim: inserting `cap + 1` distinct keys into an empty cache evicts
the first key, and its subsequent lookup performs a fresh call.  But a
cache hit refreshes an entry: after a hit on `k`, one further lookup of
a different key never evicts `k` (capacity ≥ 2), contradicting
eviction "independent of the recency of its use". -/
theorem c8_amended :
    (∀ cap (fetch : String → String) (k : String) (ks : List String),
      (k :: ks).Nodup → (k :: ks).length = cap + 1 →
      k ∉ lruKeys (lruRun cap fetch (k :: ks) ⟨[]⟩).1 ∧
      (lruGet cap fetch (lruRun cap fetch (k :: ks) ⟨[]⟩).1 k).2.2 = true) ∧
    (∀ cap (fetch : String → String) (c : LruCache String String) (k knew v : String),
      2 ≤ cap → c.entries.lookup k = some v → knew ≠ k →
      (lruGet cap fetch (lruGet cap fetch c k).2.1 knew).2.1.entries.lookup k = some v) := by
  constructor
  · intro cap fetch k ks hnd hlen
    have hlen' : ks.length = cap := by simpa using hlen
    have hent : (lruRun cap fetch (k :: ks) ⟨[]⟩).1.entries =
        (ks.map (fun k => (k, fetch k))).reverse := by
      rw [lruRun_fresh_entries cap fetch (k :: ks) ⟨[]⟩ hnd (by simp) (by simp)]
      rw [List.map_cons, List.reverse_cons, List.append_nil]
      have hl : ((ks.map (fun k => (k, fetch k))).reverse).length = cap := by
        simp [hlen']
      rw [← hl, List.take_left]
    have hk : k ∉ ks := (List.nodup_cons.mp hnd).1
    have hkeys : k ∉ (lruRun cap fetch (k :: ks) ⟨[]⟩).1.entries.map Prod.fst := by
      rw [hent]
      intro hm
      rw [← List.map_reverse, List.map_map] at hm
      simp only [List.mem_map, List.mem_reverse] at hm
      obtain ⟨x, hx, he⟩ := hm
      exact hk (by simpa [← he] using hx)
    refine ⟨hkeys, ?_⟩
    have hnone := lookup_none_of_not_mem_keys k _ hkeys
    simp [lruGet, hnone]
  · intro cap fetch c k knew v hcap hkv hne
    have hkb : (k == knew) = false := beq_eq_false_iff_ne.mpr (fun h => hne h.symm)
    simp only [lruGet, hkv]
    cases hk2 : ((k, v) :: c.entries.filter (fun e => !(e.1 == k))).lookup knew with
    | some v' =>
      simp only [hk2]
      simp [List.lookup, List.filter, hkb]
    | none =>
      simp only [List.lookup]
      obtain ⟨m, rfl⟩ : ∃ m, cap = m + 2 := ⟨cap - 2, by omega⟩
      simp only [List.take_succ_cons, List.lookup, hkb]
      simp [List.lookup]

/-- C8 amended witness: three distinct keys in a 2-entry cache evict
the first; a hit preserves an entry across a following miss. -/
theorem c8_amended_witness :
    ("x" ∉ lruKeys (lruRun 2 fxFetch ["x", "y", "z"] ⟨[]⟩).1 ∧
      (lruGet 2 fxFetch (lruRun 2 fxFetch ["x", "y", "z"] ⟨[]⟩).1 "x").2.2 = true) ∧
    (lruGet 2 fxFetch (lruGet 2 fxFetch ⟨[("x", "x"), ("y", "y")]⟩ "x").2.1 "z").2.1.entries.lookup "x" =
      some "x" := by
  exact ⟨c8_amended.1 2 fxFetch "x" ["y", "z"] (by decide) (by decide),
         c8_amended.2 2 fxFetch ⟨[("x", "x"), ("y", "y")]⟩ "x" "z" "x"
           (by decide) (by decide) (by decide)⟩

theorem combine_err :
    ∀ (l : List (Except PyErr (String ⊕ List FileDict) × List String)) e,
      (GWAS.combineSubdirs l).1 = .error e → ∃ p ∈ l, p.1 = .error e := by
  intro l
  induction l with
  | nil => intro e h; simp [GWAS.combineSubdirs] at h
  | cons p rest ih =>
    intro e h
    obtain ⟨r, log⟩ := p
    rw [GWAS.combineSubdirs.eq_def] at h
    simp only at h
    cases r with
    | error e' =>
      simp only at h
      exact ⟨(.error e', log), by simp, by rw [(Except.error.injEq _ _).mp h]⟩
    | ok sub =>
      simp only at h
      cases hn : (GWAS.combineSubdirs rest).1 with
      | error e2 =>
        simp only [hn] at h
        obtain ⟨p', hp', he'⟩ := ih e (by rw [hn, ← h])
        exact ⟨p', List.mem_cons_of_mem _ hp', he'⟩
      | ok more => simp [hn] at h

theorem gwas_extract_err (net : GWAS.Net) (acc : String) :
    ∀ fuel dir e, (GWAS.extract_all_files net acc fuel dir).1 = .error e →
      e = .recursionError ∨ (e = .valueError ∧ pyInt (acc.drop 4) = none) := by
  intro fuel
  induction fuel with
  | zero =>
    intro dir e h
    left
    have : (PyErr.recursionError : PyErr) = e := by simpa [GWAS.extract_all_files] using h
    exact this.symm
  | succ f ih =>
    intro dir e h
    rw [GWAS.extract_all_files] at h
    cases hp : pyInt (acc.drop 4) with
    | none =>
      right
      rw [grs_err acc hp] at h
      simp only at h
      exact ⟨((Except.error.injEq _ _).mp h).symm, rfl⟩
    | some n =>
      obtain ⟨rs, hrs⟩ := grs_ok acc (by simp [hp])
      rw [hrs] at h
      simp only at h
      cases hf : net.ftp (GWAS.dirUrl rs acc dir) with
      | none => simp [hf] at h
      | some rows =>
        simp only [hf] at h
        cases hs : (GWAS.combineSubdirs ((GWAS.rowDirs (GWAS.dirUrl rs acc dir) dir rows).map
            (fun d => GWAS.extract_all_files net acc f (dir ++ d)))).1 with
        | error e2 =>
          simp only [hs] at h
          obtain ⟨p, hp', he⟩ := combine_err _ e2 hs
          obtain ⟨d, _, hd⟩ := List.mem_map.mp hp'
          have := ih (dir ++ d) e2 (by rw [hd]; exact he)
          rcases this with h1 | h1
          · left; rw [← (Except.error.injEq _ _).mp h, h1]
          · exact absurd h1.2 (by simp [hp])
        | ok more => simp [hs] at h

theorem gwas_get_access_err (net : GWAS.Net) (acc : String) (fuel : Nat) (e : PyErr)
    (h : (GWAS.get_access net acc fuel).1 = .error e) :
    e = .recursionError ∨ (e = .valueError ∧ pyInt (acc.drop 4) = none) := by
  rw [GWAS.get_access] at h
  cases hapi : net.api (GWAS.apiUrl acc) with
  | false => simp [hapi] at h
  | true =>
    simp only [hapi, if_true] at h
    cases he : (GWAS.extract_all_files net acc fuel "").1 with
    | error e' =>
      simp only [he] at h
      rw [← (Except.error.injEq _ _).mp h] at *
      exact gwas_extract_err net acc fuel "" e' he
    | ok v =>
      cases v with
      | inl s =>
        simp only [he] at h
        split at h
        · simp at h
        · split at h <;> simp at h
      | inr files =>
        simp only [he] at h
        split at h <;> simp at h

theorem gwas_process_err (net : GWAS.Net) (acc : String) (fuel : Nat) (e : PyErr)
    (h : (GWAS.process_accession net acc fuel).1 = .error e) :
    e = .recursionError ∨ (e = .valueError ∧ pyInt (acc.drop 4) = none) := by
  rw [GWAS.process_accession] at h
  cases ha : (GWAS.get_access net acc fuel).1 with
  | error e' =>
    simp only [ha] at h
    rw [← (Except.error.injEq _ _).mp h] at *
    exact gwas_get_access_err net acc fuel e' ha
  | ok access =>
    simp only [ha] at h
    by_cases hpub : access = "public"
    · simp only [hpub, if_true] at h
      cases he : (GWAS.extract_all_files net acc fuel "").1 with
      | error e' =>
        simp only [he] at h
        rw [← (Except.error.injEq _ _).mp h] at *
        exact gwas_extract_err net acc fuel "" e' he
      | ok files => simp [he] at h
    · simp [hpub] at h

theorem ae_paths_err : ∀ (found : List Json) (j : Json) (e : PyErr),
    ArrayExpress.extractPaths found j = .error e → e = .typeErr := by
  have main : ∀ (found0 : List Json) (j : Json), ∀ (found : List Json) (e : PyErr),
      ArrayExpress.extractPaths found j = .error e → e = .typeErr := by
    refine ArrayExpress.extractPaths.induct
      (fun _ j => ∀ found e, ArrayExpress.extractPaths found j = .error e → e = .typeErr)
      (fun _ il => ∀ found e, ArrayExpress.extractPathsItems found il = .error e → e = .typeErr)
      (fun _ fl => ∀ found e, ArrayExpress.extractPathsFields found fl = .error e → e = .typeErr)
      ?_ ?_ ?_ ?_ ?_ ?_ ?_ ?_ ?_
    · intro found a v l2 hv found1 e h
      rw [ArrayExpress.extractPaths] at h
      rw [show (jLookup a "path").getD (Json.str "") = Json.obj l2 from hv] at h
      exact ((Except.error.injEq _ _).mp h).symm
    · intro found a v l2 hv found1 e h
      rw [ArrayExpress.extractPaths] at h
      rw [show (jLookup a "path").getD (Json.str "") = Json.arr l2 from hv] at h
      exact ((Except.error.injEq _ _).mp h).symm
    · intro found a v found' hobj harr ih found1 e h
      rw [ArrayExpress.extractPaths] at h
      cases hv2 : (jLookup a "path").getD (Json.str "") with
      | obj l2 => exact (hobj l2 hv2).elim
      | arr l2 => exact (harr l2 hv2).elim
      | str s => rw [hv2] at h; exact ih _ e h
      | num d => rw [hv2] at h; exact ih _ e h
      | bool b => rw [hv2] at h; exact ih _ e h
      | null => rw [hv2] at h; exact ih _ e h
    · intro found a ih found1 e h
      rw [ArrayExpress.extractPaths] at h
      exact ih found1 e h
    · intro t found hobj harr found1 e h
      cases t with
      | obj l2 => exact (hobj l2 rfl).elim
      | arr l2 => exact (harr l2 rfl).elim
      | str s => simp [ArrayExpress.extractPaths] at h
      | num d => simp [ArrayExpress.extractPaths] at h
      | bool b => simp [ArrayExpress.extractPaths] at h
      | null => simp [ArrayExpress.extractPaths] at h
    · intro found found1 e h
      simp [ArrayExpress.extractPathsFields] at h
    · intro found k' v rest ih1 ih2 found1 e h
      rw [ArrayExpress.extractPathsFields] at h
      simp only [Bind.bind, Except.bind] at h
      cases h1 : ArrayExpress.extractPaths found1 v with
      | error e1 =>
        rw [h1] at h
        rw [(Except.error.injEq _ _).mp h] at h1
        exact ih1 found1 e h1
      | ok found2 =>
        rw [h1] at h
        exact ih2 found2 found2 e h
    · intro found found1 e h
      simp [ArrayExpress.extractPathsItems] at h
    · intro found v rest ih1 ih2 found1 e h
      rw [ArrayExpress.extractPathsItems] at h
      simp only [Bind.bind, Except.bind] at h
      cases h1 : ArrayExpress.extractPaths found1 v with
      | error e1 =>
        rw [h1] at h
        rw [(Except.error.injEq _ _).mp h] at h1
        exact ih1 found1 e h1
      | ok found2 =>
        rw [h1] at h
        exact ih2 found2 found2 e h
  intro found j e h
  exact main [] j found e h

theorem ae_get_all_file_names_err (net : ArrayExpress.Net) (acc : String) (e : PyErr)
    (h : ArrayExpress.get_all_file_names net acc = .error e) : e = .typeErr := by
  rw [ArrayExpress.get_all_file_names] at h
  cases hj : net.json acc with
  | none => simp [hj] at h
  | some j =>
    simp only [hj] at h
    by_cases ht : pyTruthy j
    · rw [if_neg (by simp [ht])] at h
      cases hp : ArrayExpress.extractPaths [] j with
      | error e1 =>
        rw [hp] at h
        simp only [Except.map, Except.error.injEq] at h
        rw [← h]
        exact ae_paths_err [] j e1 hp
      | ok found =>
        rw [hp] at h
        simp [Except.map] at h
    · rw [if_pos (by simp [ht])] at h
      simp at h

theorem emdb_search_ok (acc m : String) : ∀ j : Json,
    EMDB.sizesOk j = true → ∃ l, EMDB.searchFiles acc m j = .ok l := by
  refine EMDB.searchFiles.induct acc m
    (fun j => EMDB.sizesOk j = true → ∃ l, EMDB.searchFiles acc m j = .ok l)
    (fun il => EMDB.sizesOkItems il = true → ∃ l, EMDB.searchItems acc m il = .ok l)
    (fun fl => EMDB.sizesOkFields fl = true → ∃ l, EMDB.searchFields acc m fl = .ok l)
    ?_ ?_ ?_ ?_ ?_ ?_ ?_ ?_
  · intro a fv sv hsv hfv ih hok
    rw [EMDB.sizesOk] at hok
    simp only [hfv, hsv, Bool.and_eq_true] at hok
    obtain ⟨hsz, hfields⟩ := hok
    obtain ⟨rest, hrest⟩ := ih hfields
    have hq : ∃ q, EMDB.sizeValue sv = .ok q := by
      cases sv with
      | num d => exact ⟨d, rfl⟩
      | bool b => exact ⟨⟨if b then 1 else 0, 0⟩, rfl⟩
      | obj l2 => simp at hsz
      | arr l2 => simp at hsz
      | str s => simp at hsz
      | null => simp at hsz
    obtain ⟨q, hq⟩ := hq
    refine ⟨EMDB.mkRecord acc m a fv q :: rest, ?_⟩
    rw [EMDB.searchFiles]
    simp [hfv, hsv, hq, hrest, Bind.bind, Except.bind, pure, Except.pure]
  · intro a hno ih hok
    rw [EMDB.sizesOk] at hok
    simp only [Bool.and_eq_true] at hok
    obtain ⟨rest, hrest⟩ := ih hok.2
    refine ⟨rest, ?_⟩
    rw [EMDB.searchFiles]
    cases hf : jLookup a "file" with
    | none => simpa [hf] using hrest
    | some fv =>
      cases hs : jLookup a "size_kbytes" with
      | none => simpa [hf, hs] using hrest
      | some sv => exact (hno fv sv hf hs).elim
  · intro a ih hok
    rw [EMDB.sizesOk] at hok
    obtain ⟨l, hl⟩ := ih hok
    exact ⟨l, by rw [EMDB.searchFiles]; exact hl⟩
  · intro t hobj harr _
    refine ⟨[], ?_⟩
    cases t with
    | obj l2 => exact (hobj l2 rfl).elim
    | arr l2 => exact (harr l2 rfl).elim
    | str s => rfl
    | num d => rfl
    | bool b => rfl
    | null => rfl
  · intro _
    exact ⟨[], rfl⟩
  · intro k' v rest ih1 ih3 hok
    rw [EMDB.sizesOkFields] at hok
    simp only [Bool.and_eq_true] at hok
    obtain ⟨a, ha⟩ := ih1 hok.1
    obtain ⟨b, hb⟩ := ih3 hok.2
    refine ⟨a ++ b, ?_⟩
    rw [EMDB.searchFields]
    simp [ha, hb, Bind.bind, Except.bind, pure, Except.pure]
  · intro _
    exact ⟨[], rfl⟩
  · intro v rest ih1 ih2 hok
    rw [EMDB.sizesOkItems] at hok
    simp only [Bool.and_eq_true] at hok
    obtain ⟨a, ha⟩ := ih1 hok.1
    obtain ⟨b, hb⟩ := ih2 hok.2
    refine ⟨a ++ b, ?_⟩
    rw [EMDB.searchItems]
    simp [ha, hb, Bind.bind, Except.bind, pure, Except.pure]

theorem osf_listing_ok (net : OSF.Net) (rid : String) (es : List OSF.Entry)
    (hst : net.storage rid none = some es)
    (hkind : es.any (fun e => e.kind.isSome) = true)
    (hpath : (es.filter (fun e => e.kind == some "file")).isEmpty = false →
      es.any (fun e => e.materialized_path.isSome) = true)
    (hid : es.any (fun e => e.id.isSome) = true)
    (hfold : (es.filter (fun e => e.kind == some "folder")).isEmpty = false) :
    (OSF.get_all_file_names net rid).isOk = true := by
  by_cases hemp : es.isEmpty
  · simp [OSF.get_all_file_names, hst, hemp, Except.isOk, Except.toBool]
  · rw [OSF.get_all_file_names]
    simp only [hst]
    rw [if_neg hemp, if_neg (by simp [hkind])]
    rw [if_neg ?hc, if_neg (by simp [hid]), if_neg ?hf]
    case hc =>
      rintro ⟨h1, h2⟩
      exact h2 (hpath ((Bool.not_eq_true _).mp h1))
    case hf =>
      intro hmap
      cases hft : es.filter (fun e => e.kind == some "folder") with
      | nil => rw [hft] at hfold; simp at hfold
      | cons a t => rw [hft] at hmap; simp at hmap
    rfl

/-- C1 counterexample: two public operations raise past the adapter
boundary.  The OSF file listing constructs `ThreadPoolExecutor` with
`min(len(folder_ids), 10) = 0` workers whenever the root listing holds
file rows but no folder — a `ValueError` that also escapes
`process_accession`; and GWAS `extract_all_files` runs `int(acc[4:])`
before any request, raising `ValueError` on a malformed accession. -/
theorem c1_counterexample :
    OSF.get_all_file_names fxOsfNoFolders "bgw73" = .error .poolError ∧
    OSF.process_accession fxOsfNoFolders "bgw73" = .error .poolError ∧
    (GWAS.extract_all_files fxGwasDead "BAD" 5 "").1 = .error .valueError := by
  exact ⟨by decide, by decide, by decide⟩

/-- C1 amended: network and decode failures are encoded as values, and
ENCODE and Zenodo operations always return one, but some inputs raise:
GWAS operations raise `ValueError` whenever an accession with an
unparsable tail reaches the FTP-path construction (and can exhaust the
recursion budget on over-deep listings) — those are the only GWAS
exceptions; the OSF listing raises unless the root frame has the
kind/path/id columns and at least one folder row (a zero-folder listing
crashes the worker-pool constructor), and returns `[]` only for an
absent or empty root response; the ArrayExpress JSON name listing can
raise only the unhashable-path `TypeError`; EMDB returns a value
whenever sizes are numeric and the `admin` chain is well-shaped. -/
theorem c1_amended :
    (∀ (net : GWAS.Net) acc fuel dir e,
      (GWAS.extract_all_files net acc fuel dir).1 = .error e →
      e = .recursionError ∨ (e = .valueError ∧ pyInt (acc.drop 4) = none)) ∧
    (∀ (net : GWAS.Net) acc fuel e, (GWAS.get_access net acc fuel).1 = .error e →
      e = .recursionError ∨ (e = .valueError ∧ pyInt (acc.drop 4) = none)) ∧
    (∀ (net : GWAS.Net) acc fuel e, (GWAS.process_accession net acc fuel).1 = .error e →
      e = .recursionError ∨ (e = .valueError ∧ pyInt (acc.drop 4) = none)) ∧
    (∀ (net : OSF.Net) rid, net.storage rid none = none →
      OSF.get_all_file_names net rid = .ok []) ∧
    (∀ (net : OSF.Net) rid, net.storage rid none = some [] →
      OSF.get_all_file_names net rid = .ok []) ∧
    (∀ (net : OSF.Net) rid es, net.storage rid none = some es →
      es.any (fun e => e.kind.isSome) = true →
      ((es.filter (fun e => e.kind == some "file")).isEmpty = false →
        es.any (fun e => e.materialized_path.isSome) = true) →
      es.any (fun e => e.id.isSome) = true →
      (es.filter (fun e => e.kind == some "folder")).isEmpty = false →
      (OSF.get_all_file_names net rid).isOk = true) ∧
    (∀ (net : OSF.Net) rid, (OSF.get_all_file_names net rid).isOk = true →
      (OSF.process_accession net rid).isOk = true) ∧
    (∀ (net : ArrayExpress.Net) acc e,
      ArrayExpress.get_all_file_names net acc = .error e → e = .typeErr) ∧
    (∀ (net : EMDB.Net) acc j m, net.json acc = some j →
      EMDB.modificationDate j = .ok m → EMDB.sizesOk j = true →
      (EMDB.process_accession net acc).isOk = true) ∧
    (∀ (net : EMDB.Net) acc, net.json acc = none →
      EMDB.process_accession net acc = .ok ⟨"not accessible / wrong repository ID", []⟩) ∧
    (∀ (net : Encode.Net) acc, net.json acc = none →
      Encode.process_accession net acc = ⟨"Wrong accession code", []⟩) ∧
    (∀ (net : Zenodo.Net) rid, net.json rid = none →
      Zenodo.process_accession net rid = ⟨"not accessible / wrong repository ID", []⟩) ∧
    (∀ (net : ArrayExpress.Net) acc url, ArrayExpress.generate_ftp_url acc = some url →
      net.ftp url = none →
      (ArrayExpress.process_accession net acc).1 = ⟨"restricted", []⟩) := by
  refine ⟨?_, ?_, ?_, ?_, ?_, ?_, ?_, ?_, ?_, ?_, ?_, ?_, ?_⟩
  · intro net acc fuel dir e h
    exact gwas_extract_err net acc fuel dir e h
  · intro net acc fuel e h
    exact gwas_get_access_err net acc fuel e h
  · intro net acc fuel e h
    exact gwas_process_err net acc fuel e h
  · intro net rid h
    simp [OSF.get_all_file_names, h]
  · intro net rid h
    simp [OSF.get_all_file_names, h]
  · intro net rid es hst hkind hpath hid hfold
    exact osf_listing_ok net rid es hst hkind hpath hid hfold
  · intro net rid h
    rw [OSF.process_accession]
    split
    · rfl
    · cases hg : OSF.get_all_file_names net rid with
      | error e =>
        rw [hg] at h
        simp [Except.isOk, Except.toBool] at h
      | ok l => simp [hg, Except.map, Except.isOk, Except.toBool]
  · intro net acc e h
    exact ae_get_all_file_names_err net acc e h
  · intro net acc j m hj hm hsz
    have hd : ∃ o, EMDB.get_file_details net acc = .ok o := by
      rw [EMDB.get_file_details]
      simp only [hj]
      by_cases ht : pyTruthy j
      · rw [if_neg (by simp [ht])]
        obtain ⟨l, hl⟩ := emdb_search_ok acc m j hsz
        exact ⟨if l.isEmpty then none else some l,
          by simp [hm, hl, Bind.bind, Except.bind, pure, Except.pure]⟩
      · exact ⟨none, by simp [ht]⟩
    obtain ⟨o, ho⟩ := hd
    simp [EMDB.process_accession, ho, Bind.bind, Except.bind, pure, Except.pure,
      Except.isOk, Except.toBool]
  · intro net acc h
    simp [EMDB.process_accession, EMDB.get_file_details, EMDB.get_access, h,
      Bind.bind, Except.bind, pure, Except.pure]
  · intro net acc h
    simp [Encode.process_accession, Encode.get_access, Encode.get_file_metadata, h]
  · intro net rid h
    simp [Zenodo.process_accession, h]
  · intro net acc url hu hf
    have hca : ArrayExpress.check_access net acc = ("restricted", [url]) := by
      simp [ArrayExpress.check_access, hu, hf]
    simp only [ArrayExpress.process_accession, hca]
    rw [if_pos (by decide)]

/-- C1 amended witness: the conjuncts at concrete environments. -/
theorem c1_amended_witness :
    (PyErr.valueError = PyErr.recursionError ∨
      (PyErr.valueError = PyErr.valueError ∧ pyInt ("BAD".drop 4) = none)) ∧
    (OSF.get_all_file_names fxOsfNet "bgw73").isOk = true ∧
    (OSF.process_accession fxOsfNet "bgw73").isOk = true ∧
    (EMDB.process_accession fxEmdbNet "EMD-25583").isOk = true ∧
    Encode.process_accession ⟨fun _ => none⟩ "ENCX" = ⟨"Wrong accession code", []⟩ ∧
    Zenodo.process_accession ⟨fun _ => none⟩ "1" =
      ⟨"not accessible / wrong repository ID", []⟩ := by
  refine ⟨c1_amended.1 fxGwasDead "BAD" 5 "" .valueError (by decide),
          c1_amended.2.2.2.2.2.1 fxOsfNet "bgw73"
            [fxOsfFile "f1" "/a.txt" 100, fxOsfFolder "d1" "/sub/"]
            (by decide) (by decide) (fun _ => by decide) (by decide) (by decide),
          c1_amended.2.2.2.2.2.2.1 fxOsfNet "bgw73"
            (c1_amended.2.2.2.2.2.1 fxOsfNet "bgw73"
              [fxOsfFile "f1" "/a.txt" 100, fxOsfFolder "d1" "/sub/"]
              (by decide) (by decide) (fun _ => by decide) (by decide) (by decide)),
          c1_amended.2.2.2.2.2.2.2.2.1 fxEmdbNet "EMD-25583" fxEmdbDoc
            "2022-03-01 00:00" rfl (by decide) (by decide),
          c1_amended.2.2.2.2.2.2.2.2.2.2.1 ⟨fun _ => none⟩ "ENCX" rfl,
          c1_amended.2.2.2.2.2.2.2.2.2.2.2.1 ⟨fun _ => none⟩ "1" rfl⟩
